import Mathlib

/-!
Verification of the psyche-siren conversation-state store and
response-validation pipeline.  The definitions below are shallow
embeddings of the TypeScript sources `src/lib/store.ts`,
`src/lib/utils.ts` and the orchestrator in `src/components/chat.tsx`.
Text is modelled as `List Char`; JavaScript `Date.now()` timestamps and
generated identifiers are passed as explicit `Nat` parameters; the
floating-point quality averages are modelled over `ℚ`.
-/

namespace PsycheSiren

/-- Text content, as a list of characters (JS strings). -/
abbrev Str := List Char

/-- The apostrophe character, used inside several fixed vocabulary strings. -/
def apos : Char := Char.ofNat 39

/-- JS `toLowerCase`, character by character. -/
def lowerStr (s : Str) : Str := s.map Char.toLower

/-- Case-sensitive prefix test on character lists. -/
def prefEq : Str → Str → Bool
  | [], _ => true
  | _ :: _, [] => false
  | a :: as, b :: bs => (a == b) && prefEq as bs

/-- JS `haystack.includes(needle)`: substring test on character lists. -/
def containsSub : Str → Str → Bool
  | [], needle => needle.isEmpty
  | c :: t, needle => prefEq needle (c :: t) || containsSub t needle

/-- Case-insensitive prefix test (pattern given lowercase or mixed). -/
def prefixCI : Str → Str → Bool
  | [], _ => true
  | _ :: _, [] => false
  | a :: as, b :: bs => (a.toLower == b.toLower) && prefixCI as bs

/-- JS `String.prototype.replace` with a literal, case-insensitive, global
pattern: scan left-to-right, replace each non-overlapping case-insensitive
occurrence of `p` by `r`, never rescanning the replacement text. -/
def replCI (p r : Str) : Str → Str
  | [] => []
  | c :: cs =>
    if h : prefixCI p (c :: cs) = true ∧ p ≠ [] then
      r ++ replCI p r ((c :: cs).drop p.length)
    else
      c :: replCI p r cs
termination_by s => s.length
decreasing_by
  · have hp : 0 < p.length := List.length_pos.mpr h.2
    simp only [List.length_drop, List.length_cons]
    omega
  · simp

/-- No occurrence of the (lowercased) pattern `q` can overlap an occurrence
of the tracked lowercase string `T`: `T` does not occur inside `q`, `q` does
not occur inside `T`, no proper suffix of `q` is a prefix of `T`, and no
proper prefix of `q` is a suffix of `T`. -/
def noOverlap (q T : Str) : Prop :=
  containsSub q T = false ∧ containsSub T q = false ∧
  (∀ k, k < T.length → 0 < k → k < q.length → q.drop (q.length - k) ≠ T.take k) ∧
  (∀ k, k < T.length → 0 < k → k < q.length → q.take k ≠ T.drop (T.length - k))

instance (q T : Str) : Decidable (noOverlap q T) := by
  unfold noOverlap; infer_instance

/-! ## Pattern extractors (`src/lib/store.ts`) -/

/-- Vocabulary of emotional-marker words (`extractEmotionalMarkers`). -/
def emotionalWords : List Str :=
  ["anxious", "scared", "excited", "overwhelmed", "peaceful", "frustrated",
   "lonely", "connected", "vulnerable", "safe", "trapped", "free",
   "angry", "sad", "joyful", "numb", "intense", "calm", "hopeful",
   "devastated", "conflicted", "empowered", "lost", "grounded"].map String.toList

/-- Vocabulary of psychological-pattern phrases (`extractPsychologicalPatterns`,
store variant). -/
def psychologicalPatternWords : List Str :=
  ["childhood", "family", "parents", "trauma", "anxiety", "fear",
   "control", "safety", "validation", "creativity", "expression",
   "vulnerability", "attachment", "abandonment", "criticism", "perfectionism",
   "identity", "healing", "growth", "development", "relationship",
   "emotional regulation", "self-worth", "boundaries", "trust"].map String.toList

/-- `extractEmotionalMarkers` from `store.ts`: the emotional words found as
case-insensitive substrings of the text (the vocabulary has no duplicates,
so the final `Set`-dedup of the source is the identity). -/
def extractEmotionalMarkers (text : Str) : List Str :=
  emotionalWords.filter (fun w => containsSub (lowerStr text) w)

/-- `extractPsychologicalPatterns` from `store.ts`. -/
def extractPsychologicalPatterns (text : Str) : List Str :=
  psychologicalPatternWords.filter (fun w => containsSub (lowerStr text) w)

/-! ## Data model (`src/lib/store.ts`) -/

inductive Role
  | user
  | assistant
deriving DecidableEq

inductive Depth
  | surface
  | emerging
  | deep
  | integration
deriving DecidableEq

inductive SessionType
  | personality
  | creative
  | music
  | labelInsights
deriving DecidableEq

inductive EnergyLevel
  | guarded
  | curious
  | open
  | vulnerable
  | excited
deriving DecidableEq

inductive CommStyle
  | direct
  | metaphorical
  | storyBased
  | reflective
deriving DecidableEq

/-- A chat message.  File/blob attachments (images, audio, video, document
handles) are not representable in this embedding and are omitted; none of
the modelled operations reads them. -/
structure Message where
  id : Nat
  role : Role
  content : Str
  timestamp : Nat
  emotionalMarkers : List Str
  psychologicalPatterns : List Str
  validationScore : Option Nat
  boundaryViolations : List Str
deriving DecidableEq

/-- The rolling conversation-state aggregate embedded in a session.  The
`creative_psychology_insights` list is modelled by its length only (no
modelled operation reads the structured insight records). -/
structure ConversationState where
  psychological_safety_level : Nat
  topics_explored : List Str
  emotional_patterns_observed : List Str
  trauma_indicators : List Str
  attachment_patterns : List Str
  insights_count : Nat
  readiness_for_depth : Depth
  user_energy_level : EnergyLevel
  preferred_communication_style : CommStyle
  conversation_flow_notes : List Str
  boundary_violations_count : Nat
  response_quality_average : ℚ
  last_validation_score : Nat
deriving DecidableEq

structure AnalysisSession where
  id : Nat
  title : Str
  messages : List Message
  createdAt : Nat
  updatedAt : Nat
  type : SessionType
  conversationState : ConversationState
deriving DecidableEq

/-- The store state (persisted sessions plus the conversation-intelligence
and quality-monitoring fields; UI-only fields such as the sidebar flag and
selected image files are omitted). -/
structure AppState where
  currentSession : Option AnalysisSession
  sessions : List AnalysisSession
  inputText : Str
  currentConversationDepth : Depth
  suggestedFollowUps : List Str
  systemHealthScore : ℚ
  totalBoundaryViolations : Nat
deriving DecidableEq

/-- `createDefaultConversationState` from `store.ts`. -/
def createDefaultConversationState : ConversationState :=
  { psychological_safety_level := 5
    topics_explored := []
    emotional_patterns_observed := []
    trauma_indicators := []
    attachment_patterns := []
    insights_count := 0
    readiness_for_depth := Depth.surface
    user_energy_level := EnergyLevel.curious
    preferred_communication_style := CommStyle.reflective
    conversation_flow_notes := []
    boundary_violations_count := 0
    response_quality_average := 100
    last_validation_score := 100 }

/-- `calculateResponseQuality` from `store.ts`: start at 100, subtract 15
per boundary violation, add 5 for psychological depth (more than two
patterns) and 5 for emotional awareness (any marker), clamp to [0, 100]. -/
def calculateResponseQuality (message : Message) : Int :=
  let s0 : Int := 100
  let s1 : Int := if message.boundaryViolations.length > 0
    then s0 - 15 * message.boundaryViolations.length else s0
  let s2 : Int := if message.psychologicalPatterns.length > 2 then s1 + 5 else s1
  let s3 : Int := if message.emotionalMarkers.length > 0 then s2 + 5 else s2
  max 0 (min 100 s3)

/-! ## Response validator (`validateResponse`, `src/lib/utils.ts`) -/

/-- Alternatives of the first-person-experience regex
`/I (understand what you're going through|know that feeling|remember when|felt that way|experienced|can relate|have been through)/gi`,
lowercased: the regex has no anchors or metacharacters, so it matches iff
one of these literals occurs case-insensitively. -/
def personalExperiencePhrases : List Str :=
  [ "i understand what you".toList ++ apos :: "re going through".toList,
    "i know that feeling".toList,
    "i remember when".toList,
    "i felt that way".toList,
    "i experienced".toList,
    "i can relate".toList,
    "i have been through".toList ]

/-- Alternatives of `/I (remember|listened to|heard|watched|read|experienced) (that|the|this)/gi`. -/
def mediaFabricationPhrases : List Str :=
  (["remember", "listened to", "heard", "watched", "read", "experienced"].map
      String.toList).flatMap fun v =>
    (["that", "the", "this"].map String.toList).map fun d =>
      "i ".toList ++ v ++ " ".toList ++ d

/-- Literal alternatives of the unverified-media-details regex (all but
`chapter \d+`). -/
def mediaClaimWords : List Str :=
  ["the opening track", "that lyric", "the guitar solo", "the production",
   "the bridge", "the chorus", "scene where", "the protagonist"].map String.toList

def chapterWord : Str := "chapter ".toList

/-- The matches of `chapter \d+` in an (already lowercased) text: each
occurrence of `"chapter "` followed by a maximal digit run.  The scan here
advances one character at a time; since `"chapter "` has no internal
`c` character and digits are never `c`, occurrences cannot overlap, so this
yields exactly the non-overlapping left-to-right matches of
`String.prototype.match` with the `g` flag. -/
def chapterMatches : Str → List Str
  | [] => []
  | c :: cs =>
    if prefEq chapterWord (c :: cs) = true ∧
        ((c :: cs).drop 8).takeWhile Char.isDigit ≠ [] then
      (chapterWord ++ ((c :: cs).drop 8).takeWhile Char.isDigit) ::
        chapterMatches cs
    else
      chapterMatches cs

/-- All media-detail claims matched in the (lowercased) response. -/
def mediaClaimMatches (lresp : Str) : List Str :=
  mediaClaimWords.filter (fun w => containsSub lresp w) ++ chapterMatches lresp

/-- Alternatives of `/as someone who (has|experienced|went through|understands)/gi`. -/
def roleConfusionPhrases : List Str :=
  (["has", "experienced", "went through", "understands"].map String.toList).map
    (fun w => "as someone who ".toList ++ w)

/-- Alternatives of `/(you need to|you should|I diagnose|I recommend therapy)/gi`. -/
def therapeuticOverreachPhrases : List Str :=
  ["you need to", "you should", "i diagnose", "i recommend therapy"].map String.toList

def matchesAnyCI (text : Str) (phrases : List Str) : Bool :=
  phrases.any (fun ph => containsSub (lowerStr text) ph)

/-- `validateResponse` from `src/lib/utils.ts`: the ordered list of
triggered violation labels. -/
def validateResponse (response userMessage : Str) : List Str :=
  let w1 := if matchesAnyCI response personalExperiencePhrases
    then ["CRITICAL: AI claiming personal experiences".toList] else []
  let w2 := if matchesAnyCI response mediaFabricationPhrases
    then ["CRITICAL: AI fabricating personal media experiences".toList] else []
  let problematicClaims := (mediaClaimMatches (lowerStr response)).filter
    (fun claim => !containsSub (lowerStr userMessage) claim)
  let w3 := if !problematicClaims.isEmpty
    then ["WARNING: Adding unverified media details".toList] else []
  let w4 := if matchesAnyCI response roleConfusionPhrases
    then ["WARNING: AI role confusion detected".toList] else []
  let w5 := if matchesAnyCI response therapeuticOverreachPhrases
    then ["WARNING: Therapeutic overreach detected".toList] else []
  w1 ++ w2 ++ w3 ++ w4 ++ w5

/-- Psychological-framework vocabulary checked by `assessResponseQuality`. -/
def psychTerms : List Str :=
  ["pattern", "psychological", "attachment", "emotional", "development"].map
    String.toList

/-- The question-mark character. -/
def qmark : Char := Char.ofNat 63

structure QualityAssessment where
  score : Int
  issues : List Str
  suggestions : List Str
deriving DecidableEq

/-- `assessResponseQuality` from `src/lib/utils.ts`. -/
def assessResponseQuality (response userMessage : Str) : QualityAssessment :=
  let violations := validateResponse response userMessage
  let s1 : Int := if violations.length > 0
    then 100 - 20 * violations.length else 100
  let hasDepth := psychTerms.any (fun t => containsSub (lowerStr response) t)
  let s2 : Int := if !hasDepth && response.length > 100 then s1 - 10 else s1
  let hasQuestions := response.any (fun c => c = qmark)
  let s3 : Int := if !hasQuestions && response.length > 50 then s2 - 5 else s2
  { score := max 0 s3
    issues := violations
    suggestions :=
      (if violations.length > 0
        then ["Maintain professional AI assistant boundaries".toList] else []) ++
      (if !hasDepth && response.length > 100
        then ["Include more psychological framework references".toList] else []) ++
      (if !hasQuestions && response.length > 50
        then ["Consider adding exploratory questions".toList] else []) }

/-! ## Safe redirect selector (`createSafeRedirectResponse`, `src/lib/utils.ts`) -/

/-! The fixed `PSYCHOLOGICAL_REDIRECTS` table. -/

namespace PsychRedirects

def music_influence : Str :=
  "What was it about that music that created such a strong psychological connection for you? What was happening emotionally when you first encountered it?".toList

def creative_inspiration : Str :=
  "That creative influence sounds significant to your development. How did encountering that work shift something psychologically for you?".toList

def formative_experience : Str :=
  "Early creative influences often connect to deep psychological needs. What aspect of that experience felt most psychologically meaningful?".toList

def emotional_connection : Str :=
  "Strong responses to creative works often reveal psychological patterns. What do you think that particular connection suggests about your inner world?".toList

def psychological_significance : Str :=
  "From a psychological perspective, that pattern suggests several dynamics might be at play. What aspects feel most significant to you?".toList

def identity_formation : Str :=
  "Creative preferences often reflect psychological development. How do you think that influence shaped your sense of identity?".toList

def attachment_pattern : Str :=
  "The way we connect to creative works often mirrors our attachment patterns. What does your response to that tell you about your relational needs?".toList

def trauma_processing : Str :=
  "Sometimes creative works help us process difficult experiences. Did that piece connect to anything you were working through psychologically?".toList

end PsychRedirects

/-- The `PSYCHOLOGICAL_REDIRECTS` table as a list. -/
def psychologicalRedirects : List Str :=
  [PsychRedirects.music_influence, PsychRedirects.creative_inspiration,
   PsychRedirects.formative_experience, PsychRedirects.emotional_connection,
   PsychRedirects.psychological_significance, PsychRedirects.identity_formation,
   PsychRedirects.attachment_pattern, PsychRedirects.trauma_processing]

/-- `createSafeRedirectResponse` from `src/lib/utils.ts`: first route on a
`'personal experiences'` violation, then by substring tests on the user
message, in source order. -/
def createSafeRedirectResponse (userMessage : Str) (violations : List Str) : Str :=
  let lowerMessage := lowerStr userMessage
  if violations.any (fun v => containsSub v "personal experiences".toList) then
    PsychRedirects.psychological_significance
  else if containsSub lowerMessage "music".toList ||
      containsSub lowerMessage "album".toList ||
      containsSub lowerMessage "song".toList then
    PsychRedirects.music_influence
  else if containsSub lowerMessage "creative".toList ||
      containsSub lowerMessage "art".toList ||
      containsSub lowerMessage "inspired".toList then
    PsychRedirects.creative_inspiration
  else if containsSub lowerMessage "childhood".toList ||
      containsSub lowerMessage "early".toList ||
      containsSub lowerMessage "family".toList then
    PsychRedirects.formative_experience
  else if containsSub lowerMessage "attachment".toList ||
      containsSub lowerMessage "relationship".toList then
    PsychRedirects.attachment_pattern
  else if containsSub lowerMessage "trauma".toList ||
      containsSub lowerMessage "difficult".toList ||
      containsSub lowerMessage "process".toList then
    PsychRedirects.trauma_processing
  else
    PsychRedirects.emotional_connection

/-! ## Fine-tuned prompt family (`validatePsychologyAnalysis`,
`createSafeAnalysisResponse`, `correctAnalysisLanguage`, `src/lib/utils.ts`) -/

/-- Alternatives of the first-person-stance regex
`/I (have|notice|experience|gravitate|feel|prefer|tend to|usually|often|sometimes|find|see|observe|think|believe|remember|know from experience)/gi`. -/
def personalStancePhrases : List Str :=
  (["have", "notice", "experience", "gravitate", "feel", "prefer", "tend to",
    "usually", "often", "sometimes", "find", "see", "observe", "think",
    "believe", "remember", "know from experience"].map String.toList).map
    (fun w => "i ".toList ++ w)

/-- Alternatives of the analytical-language regex. -/
def analyticalPhrases : List Str :=
  ["this suggests", "this indicates", "this pattern", "research shows",
   "many people", "psychological frameworks", "personality research",
   "cultural psychology"].map String.toList

/-- Alternatives of the frameworks regex. -/
def frameworkPhrases : List Str :=
  ["mbti", "big five", "attachment", "cultural", "personality",
   "psychological", "framework", "pattern", "style", "trait"].map String.toList

/-- `validatePsychologyAnalysis` from `src/lib/utils.ts` (the validator used
by the fine-tuned prompt family in `chat.tsx`). -/
def validatePsychologyAnalysis (response userMessage : Str) : List Str :=
  let w1 := if matchesAnyCI response personalStancePhrases
    then ["CRITICAL: AI claiming personal experiences".toList] else []
  let w2 := if !matchesAnyCI response analyticalPhrases && response.length > 100
    then ["WARNING: Missing professional psychological analysis language".toList]
    else []
  let w3 := if !matchesAnyCI response frameworkPhrases && response.length > 100
    then ["WARNING: Missing psychological frameworks".toList] else []
  let w4 := if response.length > 400
    then ["WARNING: Response too long for conversational analysis".toList] else []
  let questionCount := (response.filter (fun c => c = qmark)).length
  let w5 := if response.length > 100 && questionCount = 0
    then ["WARNING: Missing strategic follow-up question".toList] else []
  w1 ++ w2 ++ w3 ++ w4 ++ w5

/-! The fixed `SAFE_REDIRECTS` table. -/

namespace SafeRedirects

def cultural_analysis : Str :=
  "What aspects of your cultural background most influence your creative expression?".toList

def personality_insight : Str :=
  "What personality patterns do you recognize in your creative process?".toList

def creative_psychology : Str :=
  "How do you see your creative work serving your psychological needs?".toList

def musical_analysis : Str :=
  "What psychological role does music play in your emotional regulation?".toList

def collaboration_patterns : Str :=
  "What patterns do you notice in how you work with creative partners?".toList

def identity_formation : Str :=
  "How has your creative identity evolved over time?".toList

def attachment_exploration : Str :=
  "How do you typically handle criticism or feedback on your creative work?".toList

def cultural_expression : Str :=
  "What aspects of your cultural identity show up most in your artistic choices?".toList

end SafeRedirects

/-- `createSafeAnalysisResponse` from `src/lib/utils.ts`: routes purely on
substring tests over the user message; the `violations` parameter is
accepted but never read, exactly as in the source. -/
def createSafeAnalysisResponse (userMessage : Str) (violations : List Str) : Str :=
  let lowerMessage := lowerStr userMessage
  if containsSub lowerMessage "cultur".toList ||
      containsSub lowerMessage "background".toList ||
      containsSub lowerMessage "identity".toList then
    SafeRedirects.cultural_analysis
  else if containsSub lowerMessage "music".toList ||
      containsSub lowerMessage "song".toList ||
      containsSub lowerMessage "sound".toList then
    SafeRedirects.musical_analysis
  else if containsSub lowerMessage "creative".toList ||
      containsSub lowerMessage "art".toList ||
      containsSub lowerMessage "express".toList then
    SafeRedirects.creative_psychology
  else if containsSub lowerMessage "work".toList ||
      containsSub lowerMessage "collaborat".toList ||
      containsSub lowerMessage "partner".toList then
    SafeRedirects.collaboration_patterns
  else if containsSub lowerMessage "pattern".toList ||
      containsSub lowerMessage "personality".toList ||
      containsSub lowerMessage "trait".toList then
    SafeRedirects.personality_insight
  else
    SafeRedirects.identity_formation

/-- The eleven ordered `(pattern, replacement)` pairs of
`correctAnalysisLanguage` (each applied as a global case-insensitive
`String.prototype.replace`). -/
def correctionPairs : List (Str × Str) :=
  [ ("I".toList ++ apos :: "ve noticed that".toList, "This suggests that".toList),
    ("I tend to".toList, "You appear to".toList),
    ("I gravitate towards".toList, "You seem drawn to".toList),
    ("I usually".toList, "You typically".toList),
    ("I find that".toList, "Research indicates that".toList),
    ("I see".toList, "This analysis reveals".toList),
    ("I think".toList, "This suggests".toList),
    ("I believe".toList, "The pattern indicates".toList),
    ("I".toList ++ apos :: "ve experienced".toList, "Many people experience".toList),
    ("You are".toList, "Your psychological profile suggests you are".toList),
    ("This means".toList,
      "From a psychological perspective, this indicates".toList) ]

/-- `correctAnalysisLanguage` from `src/lib/utils.ts`: the chained
case-insensitive global replacements, in source order. -/
def correctAnalysisLanguage (response : Str) : Str :=
  correctionPairs.foldl (fun acc pr => replCI pr.1 pr.2 acc) response

/-! ## Store operations (`src/lib/store.ts`, enhanced store) -/

/-- The `analysisTypeNames` title table of `createNewSession`. -/
def analysisTypeName : SessionType → Str
  | SessionType.personality => "Personality Profile".toList
  | SessionType.creative => "Creative Assessment".toList
  | SessionType.music => "Music Psychology".toList
  | SessionType.labelInsights => "Industry Insights".toList

/-- `createNewSession`: prepend a fresh session with default conversation
state and make it current.  The generated id and `Date.now()` timestamp are
explicit parameters. -/
def createNewSession (type : SessionType) (newId now : Nat) (st : AppState) :
    AppState :=
  let newSession : AnalysisSession :=
    { id := newId
      title := analysisTypeName type
      messages := []
      createdAt := now
      updatedAt := now
      type := type
      conversationState := createDefaultConversationState }
  { st with
    sessions := newSession :: st.sessions
    currentSession := some newSession
    inputText := []
    currentConversationDepth := Depth.surface
    suggestedFollowUps := [] }

/-- The `assessDepth` closure inlined in `setCurrentSession` (note: its
cascade differs from `assessConversationDepth`). -/
def setCurrentSessionDepth : Option AnalysisSession → Depth
  | none => Depth.surface
  | some session =>
    let messageCount := session.messages.length
    let userMessages := session.messages.filter (fun m => decide (m.role = Role.user))
    let hasDeepContent := userMessages.any (fun m =>
      m.psychologicalPatterns.length > 2 || m.emotionalMarkers.length > 1)
    if messageCount < 4 then Depth.surface
    else if messageCount < 8 && !hasDeepContent then Depth.emerging
    else if messageCount < 15 || !hasDeepContent then Depth.deep
    else Depth.integration

/-- `setCurrentSession`: stores the given session reference (without any
membership check) and recomputes the cached depth. -/
def setCurrentSession (session : Option AnalysisSession) (st : AppState) :
    AppState :=
  { st with
    currentSession := session
    currentConversationDepth := setCurrentSessionDepth session }

/-- The user messages of a history (`messages.filter(m => m.role === 'user')`). -/
def userMessagesOf (messages : List Message) : List Message :=
  messages.filter (fun m => decide (m.role = Role.user))

/-- `hasEmotionalContent` in `assessConversationDepth`. -/
def hasEmotionalContent (messages : List Message) : Bool :=
  (userMessagesOf messages).any (fun m => m.emotionalMarkers.length > 0)

/-- `hasPsychologicalContent` in `assessConversationDepth`. -/
def hasPsychologicalContent (messages : List Message) : Bool :=
  (userMessagesOf messages).any (fun m => m.psychologicalPatterns.length > 2)

/-- `hasDeepExploration` in `assessConversationDepth`. -/
def hasDeepExploration (messages : List Message) : Bool :=
  (userMessagesOf messages).any (fun m =>
    m.content.length > 200 &&
      (containsSub (lowerStr m.content) "childhood".toList ||
       containsSub (lowerStr m.content) "trauma".toList ||
       containsSub (lowerStr m.content) "family".toList ||
       containsSub (lowerStr m.content) "relationship".toList))

/-- The pure classification cascade of `assessConversationDepth`. -/
def assessConversationDepthFn (messages : List Message) : Depth :=
  if messages.length < 4 then Depth.surface
  else if messages.length < 8 ||
      (!hasEmotionalContent messages && !hasPsychologicalContent messages) then
    Depth.emerging
  else if messages.length < 15 || !hasDeepExploration messages then Depth.deep
  else Depth.integration

/-- The position of a depth label in the progression
`surface < emerging < deep < integration`. -/
def depthRank : Depth → Nat
  | Depth.surface => 0
  | Depth.emerging => 1
  | Depth.deep => 2
  | Depth.integration => 3

/-- The `assessConversationDepth` store action: with no current session it
returns `'surface'` without touching the state; otherwise it caches the
recomputed depth. -/
def assessConversationDepthAction (st : AppState) : AppState :=
  match st.currentSession with
  | none => st
  | some c =>
    { st with currentConversationDepth := assessConversationDepthFn c.messages }

/-- `generateConversationSuggestions`: canned follow-up strings selected by
the cached depth and the last user message's derived fields. -/
def generateConversationSuggestionsAction (st : AppState) : AppState :=
  match st.currentSession with
  | none => st
  | some c =>
    let suggestions : List Str :=
      match (userMessagesOf c.messages).getLast? with
      | none => []
      | some lastUserMessage =>
        let patterns := lastUserMessage.psychologicalPatterns
        let emotions := lastUserMessage.emotionalMarkers
        match st.currentConversationDepth with
        | Depth.surface =>
          ["What draws you to explore that particular aspect of yourself?".toList,
           "How does that creative process feel psychologically for you?".toList]
        | Depth.emerging =>
          (if patterns.any (fun p => decide (p = "childhood".toList))
            then ["What early experiences shaped that pattern for you?".toList]
            else []) ++
          (if emotions.length > 0
            then ["When do you first remember feeling that way?".toList]
            else [])
        | Depth.deep =>
          ["How has working through this changed your relationship with yourself?".toList,
           "What would it look like to integrate this understanding into your daily life?".toList]
        | Depth.integration =>
          ["What wisdom would you share with someone experiencing something similar?".toList,
           "How do you want to continue growing in this area?".toList]
    { st with suggestedFollowUps := suggestions }

/-- The argument of `addMessage` (`Omit<Message, 'id' | 'timestamp'>`):
callers may supply derived fields, which the source spreads first and then
overwrites. -/
structure MessageDraft where
  role : Role
  content : Str
  emotionalMarkers : List Str
  psychologicalPatterns : List Str
  validationScore : Option Nat
  boundaryViolations : List Str
deriving DecidableEq

/-- `addMessage` from `store.ts`: build the message with freshly extracted
markers, empty violations, and a validation score only for assistant
messages; append it to the current session (no-op without one); derive the
title from a first user message; then, for user messages, rerun the depth
assessment and suggestion generation. -/
def addMessage (message : MessageDraft) (newId now : Nat) (st : AppState) :
    AppState :=
  let newMessage : Message :=
    { id := newId
      role := message.role
      content := message.content
      timestamp := now
      emotionalMarkers := extractEmotionalMarkers message.content
      psychologicalPatterns := extractPsychologicalPatterns message.content
      validationScore := if message.role = Role.user then none else some 100
      boundaryViolations := [] }
  let st1 :=
    match st.currentSession with
    | none => st
    | some c =>
      let updatedSession : AnalysisSession :=
        { c with
          messages := c.messages ++ [newMessage]
          updatedAt := now
          title :=
            if c.messages.length = 0 ∧ message.role = Role.user then
              message.content.take 60 ++
                (if message.content.length > 60 then "...".toList else [])
            else c.title }
      { st with
        currentSession := some updatedSession
        sessions := st.sessions.map
          (fun s => if s.id = updatedSession.id then updatedSession else s) }
  if message.role = Role.user then
    generateConversationSuggestionsAction (assessConversationDepthAction st1)
  else st1

/-- `updateSystemHealth` from `store.ts`:
`health = clamp(100 - violationRate * 10, 0, 100)` with the rate in percent
over all messages of all sessions. -/
def updateSystemHealthAction (st : AppState) : AppState :=
  let totalMessages := (st.sessions.map (fun s => s.messages.length)).sum
  let violationRate : ℚ :=
    if totalMessages > 0
      then ((st.totalBoundaryViolations : ℚ) / (totalMessages : ℚ)) * 100
      else 0
  { st with systemHealthScore := max 0 (min 100 (100 - violationRate * 10)) }

/-- `updateLastMessage` from `store.ts` (enhanced store).  The source's
optional arguments default to `validationScore = 100`, `violations = []` at
call sites.  After the state update the source always runs
`updateSystemHealth` (and the storage save, which has no modelled effect). -/
def updateLastMessage (content : Str) (validationScore : Nat)
    (violations : List Str) (now : Nat) (st : AppState) : AppState :=
  let st1 :=
    match st.currentSession with
    | none => st
    | some c =>
      match c.messages.getLast? with
      | none => st
      | some lastMessage =>
        if lastMessage.role = Role.assistant then
          let emotionalMarkers := extractEmotionalMarkers content
          let psychologicalPatterns := extractPsychologicalPatterns content
          let qualityScore := calculateResponseQuality
            { lastMessage with
              content := content
              boundaryViolations := violations
              emotionalMarkers := emotionalMarkers
              psychologicalPatterns := psychologicalPatterns }
          let newLast : Message :=
            { lastMessage with
              content := content
              psychologicalPatterns := psychologicalPatterns
              emotionalMarkers := emotionalMarkers
              validationScore := some validationScore
              boundaryViolations := violations }
          let updatedConversationState : ConversationState :=
            { c.conversationState with
              last_validation_score := validationScore
              boundary_violations_count :=
                c.conversationState.boundary_violations_count + violations.length
              response_quality_average :=
                (c.conversationState.response_quality_average +
                  (qualityScore : ℚ)) / 2 }
          let updatedSession : AnalysisSession :=
            { c with
              messages := c.messages.dropLast ++ [newLast]
              conversationState := updatedConversationState
              updatedAt := now }
          { st with
            currentSession := some updatedSession
            sessions := st.sessions.map
              (fun s => if s.id = updatedSession.id then updatedSession else s)
            totalBoundaryViolations :=
              st.totalBoundaryViolations + violations.length }
        else st
  updateSystemHealthAction st1

/-- `deleteSession` from `store.ts`: drop the session; if it was current,
fall back to the first remaining session or to none. -/
def deleteSession (sessionId : Nat) (st : AppState) : AppState :=
  let filteredSessions := st.sessions.filter (fun s => !decide (s.id = sessionId))
  let newCurrent : Option AnalysisSession :=
    match st.currentSession with
    | some c => if c.id = sessionId then filteredSessions.head? else some c
    | none => none
  { st with sessions := filteredSessions, currentSession := newCurrent }

/-! ## The second (legacy) store variant of `store.ts` -/

namespace Legacy

structure Message where
  id : Nat
  role : Role
  content : Str
  timestamp : Nat
deriving DecidableEq

structure AnalysisSession where
  id : Nat
  title : Str
  messages : List Message
  createdAt : Nat
  updatedAt : Nat
  type : SessionType
deriving DecidableEq

structure AppState where
  currentSession : Option AnalysisSession
  sessions : List AnalysisSession
  inputText : Str
deriving DecidableEq

/-- `updateLastMessage` of the legacy store: the content is replaced only
when the last message is an assistant message, but the session (with a
refreshed `updatedAt`) is rebuilt and written back unconditionally. -/
def updateLastMessage (content : Str) (now : Nat) (st : AppState) : AppState :=
  match st.currentSession with
  | none => st
  | some c =>
    match c.messages.getLast? with
    | none => st
    | some lastMessage =>
      let messages :=
        if lastMessage.role = Role.assistant
          then c.messages.dropLast ++ [{ lastMessage with content := content }]
          else c.messages
      let updatedSession : AnalysisSession :=
        { c with messages := messages, updatedAt := now }
      { st with
        currentSession := some updatedSession
        sessions := st.sessions.map
          (fun s => if s.id = updatedSession.id then updatedSession else s) }

end Legacy

/-! ## Orchestrator (`validateAnalysisResponse` in `src/components/chat.tsx`) -/

/-- The store effect of `validateAnalysisResponse`: if any `CRITICAL`
violation is flagged, auto-correct and re-validate; if critical flags
remain, replace the stored reply with a safe redirect via
`updateLastMessage`; otherwise store the corrected reply; with only
warnings, store the improved reply. -/
def processAssistantResponse (response userMessage : Str) (now : Nat)
    (st : AppState) : AppState :=
  let violations := validatePsychologyAnalysis response userMessage
  let criticalViolations :=
    violations.filter (fun v => containsSub v "CRITICAL".toList)
  if criticalViolations ≠ [] then
    let correctedResponse := correctAnalysisLanguage response
    let stillViolating :=
      (validatePsychologyAnalysis correctedResponse userMessage).filter
        (fun v => containsSub v "CRITICAL".toList)
    if stillViolating ≠ [] then
      updateLastMessage (createSafeAnalysisResponse userMessage violations)
        100 [] now st
    else
      updateLastMessage correctedResponse 100 [] now st
  else if violations ≠ [] then
    updateLastMessage (correctAnalysisLanguage response) 100 [] now st
  else st

/-! ## Store invariants (used to state C7) -/

/-- The store invariant of the spec: session identifiers are pairwise
distinct, every session's `createdAt` is at most its `updatedAt`, and the
active session (if any) is well-timed and identifies a member of the
session collection. -/
def storeInv (st : AppState) : Prop :=
  st.sessions.Pairwise (fun a b => a.id ≠ b.id) ∧
  (∀ s ∈ st.sessions, s.createdAt ≤ s.updatedAt) ∧
  (∀ c, st.currentSession = some c →
    c.createdAt ≤ c.updatedAt ∧ ∃ s ∈ st.sessions, s.id = c.id)

/-- The wall clock passed to an operation is at least every stored
timestamp. -/
def clockOK (st : AppState) (now : Nat) : Prop :=
  (∀ s ∈ st.sessions, s.updatedAt ≤ now) ∧
  (∀ c, st.currentSession = some c → c.updatedAt ≤ now)

/-- Timestamps never decrease across an operation: any post-state session
carries an `updatedAt` at least that of every same-id pre-state session. -/
def noTimestampDecrease (pre post : AppState) : Prop :=
  ∀ s2 ∈ post.sessions, ∀ s1 ∈ pre.sessions, s1.id = s2.id →
    s1.updatedAt ≤ s2.updatedAt

/-! ## Properties of the string primitives -/

@[simp] theorem prefEq_nil (b : Str) : prefEq [] b = true := rfl

theorem prefEq_iff (a b : Str) : prefEq a b = true ↔ ∃ t, b = a ++ t := by
  induction a generalizing b with
  | nil => simp [prefEq]
  | cons x xs ih =>
    cases b with
    | nil => simp [prefEq]
    | cons y ys =>
      simp only [prefEq, Bool.and_eq_true, beq_iff_eq, ih, List.cons_append,
        List.cons.injEq]
      constructor
      · rintro ⟨rfl, t, rfl⟩; exact ⟨t, rfl, rfl⟩
      · rintro ⟨t, rfl, rfl⟩; exact ⟨rfl, t, rfl⟩

theorem containsSub_iff (hay needle : Str) :
    containsSub hay needle = true ↔ ∃ u v, hay = u ++ needle ++ v := by
  induction hay with
  | nil =>
    simp only [containsSub, List.isEmpty_iff]
    constructor
    · rintro rfl; exact ⟨[], [], rfl⟩
    · rintro ⟨u, v, h⟩
      rcases List.append_eq_nil.mp h.symm with ⟨h1, h2⟩
      exact (List.append_eq_nil.mp h1).2
  | cons c t ih =>
    simp only [containsSub, Bool.or_eq_true, prefEq_iff, ih]
    constructor
    · rintro (⟨u, hu⟩ | ⟨u, v, rfl⟩)
      · exact ⟨[], u, by simpa using hu⟩
      · exact ⟨c :: u, v, rfl⟩
    · rintro ⟨u, v, h⟩
      cases u with
      | nil => exact Or.inl ⟨v, by simpa using h⟩
      | cons x xs =>
        right
        refine ⟨xs, v, ?_⟩
        simp only [List.cons_append, List.cons.injEq] at h
        exact h.2

theorem lowerStr_append (a b : Str) : lowerStr (a ++ b) = lowerStr a ++ lowerStr b :=
  List.map_append _ a b

theorem lowerStr_cons (c : Char) (s : Str) :
    lowerStr (c :: s) = c.toLower :: lowerStr s := rfl

theorem lowerStr_length (s : Str) : (lowerStr s).length = s.length :=
  List.length_map s _

theorem lowerStr_ne_nil {s : Str} (h : s ≠ []) : lowerStr s ≠ [] := by
  simpa [lowerStr, List.map_eq_nil_iff] using h

theorem prefixCI_iff (p s : Str) :
    prefixCI p s = true ↔ ∃ t, lowerStr s = lowerStr p ++ t := by
  induction p generalizing s with
  | nil => simpa [prefixCI, lowerStr] using ⟨lowerStr s, rfl⟩
  | cons a as ih =>
    cases s with
    | nil => simp [prefixCI, lowerStr]
    | cons b bs =>
      simp only [prefixCI, Bool.and_eq_true, beq_iff_eq, ih, lowerStr_cons,
        List.cons_append, List.cons.injEq]
      constructor
      · rintro ⟨hab, t, ht⟩; exact ⟨t, hab.symm, ht⟩
      · rintro ⟨t, hba, ht⟩; exact ⟨hba.symm, t, ht⟩

theorem prefixCI_decomp {p s : Str} (h : prefixCI p s = true) :
    lowerStr s = lowerStr p ++ lowerStr (s.drop p.length) := by
  obtain ⟨t, ht⟩ := (prefixCI_iff p s).mp h
  have hdrop : lowerStr (s.drop p.length) = t := by
    rw [lowerStr, List.map_drop, ← lowerStr]
    rw [ht]
    exact List.drop_left' (by simp [lowerStr_length])
  rw [ht, hdrop]

theorem replCI_nil (p r : Str) : replCI p r [] = [] := by
  rw [replCI]

theorem replCI_cons_fire {p : Str} (r : Str) {c : Char} {cs : Str}
    (h : prefixCI p (c :: cs) = true ∧ p ≠ []) :
    replCI p r (c :: cs) = r ++ replCI p r ((c :: cs).drop p.length) := by
  rw [replCI, dif_pos h]

theorem replCI_cons_nofire {p : Str} (r : Str) {c : Char} {cs : Str}
    (h : ¬(prefixCI p (c :: cs) = true ∧ p ≠ [])) :
    replCI p r (c :: cs) = c :: replCI p r cs := by
  rw [replCI, dif_neg h]

theorem prefEq_length_le {a b : Str} (h : prefEq a b = true) : a.length ≤ b.length := by
  obtain ⟨t, rfl⟩ := (prefEq_iff a b).mp h
  simp

/-- While the replacement scan is positioned inside an occurrence of `T`
(at offset `j`), no pattern occurrence can fire, so the rest of `T` is
copied verbatim to the output. -/
theorem replCI_scan_inside (p r T : Str)
    (h1 : containsSub (lowerStr p) T = false)
    (h2 : containsSub T (lowerStr p) = false)
    (h4 : ∀ k, k < T.length → 0 < k → k < (lowerStr p).length →
        (lowerStr p).take k ≠ T.drop (T.length - k)) :
    ∀ (s : Str) (j : Nat) (y : Str), j < T.length →
      lowerStr s = T.drop j ++ y →
      ∃ y2, lowerStr (replCI p r s) = T.drop j ++ y2 := by
  intro s
  induction s with
  | nil =>
    intro j y hj hs
    exfalso
    have := congrArg List.length hs
    simp [lowerStr, List.length_drop] at this
    omega
  | cons c cs ih =>
    intro j y hj hs
    have hnof : ¬(prefixCI p (c :: cs) = true ∧ p ≠ []) := by
      rintro ⟨hpf, hpne⟩
      have hq : lowerStr p ≠ [] := lowerStr_ne_nil hpne
      obtain ⟨t, ht⟩ := (prefixCI_iff p (c :: cs)).mp hpf
      rw [hs] at ht
      rcases List.append_eq_append_iff.mp ht with ⟨a, ha, _⟩ | ⟨a, ha, _⟩
      · -- lowerStr p = T.drop j ++ a : the pattern starts exactly at `T`
        by_cases hj0 : j = 0
        · subst hj0
          simp only [List.drop_zero] at ha
          have : containsSub (lowerStr p) T = true :=
            (containsSub_iff _ _).mpr ⟨[], a, by simp [ha]⟩
          rw [h1] at this; cases this
        · by_cases hanil : a = []
          · subst hanil
            have : containsSub T (lowerStr p) = true := by
              refine (containsSub_iff _ _).mpr ⟨T.take j, [], ?_⟩
              simp only [List.append_nil] at ha ⊢
              rw [ha, List.take_append_drop]
            rw [h2] at this; cases this
          · have hlen : (T.drop j).length = T.length - j := List.length_drop j T
            have hk1 : 0 < T.length - j := by omega
            have hk2 : T.length - j < T.length := by omega
            have hkq : T.length - j < (lowerStr p).length := by
              have hla := congrArg List.length ha
              simp only [List.length_append, hlen] at hla
              have := List.length_pos.mpr hanil
              omega
            refine h4 (T.length - j) hk2 hk1 hkq ?_
            have h5 : (lowerStr p).take (T.length - j) = T.drop j := by
              rw [ha]; exact List.take_left' hlen
            have hj' : T.length - (T.length - j) = j := by omega
            rw [h5, hj']
      · -- T.drop j = lowerStr p ++ a : the pattern is contained in `T`
        have : containsSub T (lowerStr p) = true := by
          refine (containsSub_iff _ _).mpr ⟨T.take j, a, ?_⟩
          rw [List.append_assoc, ← ha, List.take_append_drop]
        rw [h2] at this; cases this
    rw [replCI_cons_nofire r hnof]
    have hdj : T.drop j = T[j] :: T.drop (j + 1) := List.drop_eq_getElem_cons hj
    rw [hdj, List.cons_append] at hs
    rw [lowerStr_cons] at hs
    have hc : c.toLower = T[j] := (List.cons.injEq _ _ _ _ ▸ hs).1
    have hcs : lowerStr cs = T.drop (j + 1) ++ y := (List.cons.injEq _ _ _ _ ▸ hs).2
    by_cases hj1 : j + 1 < T.length
    · obtain ⟨y2, hy2⟩ := ih (j + 1) y hj1 hcs
      refine ⟨y2, ?_⟩
      rw [lowerStr_cons, hy2, hdj, hc, List.cons_append]
    · have hnil : T.drop (j + 1) = [] := List.drop_eq_nil_of_le (by omega)
      refine ⟨lowerStr (replCI p r cs), ?_⟩
      rw [lowerStr_cons, hdj, hnil, hc, List.cons_append, List.nil_append]

/-- Main preservation lemma: a case-insensitive global replace whose
pattern cannot overlap `T` keeps every occurrence of `T` in the lowercased
text. -/
theorem replCI_keeps (p r T : Str) (hT : T ≠ [])
    (h1 : containsSub (lowerStr p) T = false)
    (h2 : containsSub T (lowerStr p) = false)
    (h3 : ∀ k, k < T.length → 0 < k → k < (lowerStr p).length →
        (lowerStr p).drop ((lowerStr p).length - k) ≠ T.take k)
    (h4 : ∀ k, k < T.length → 0 < k → k < (lowerStr p).length →
        (lowerStr p).take k ≠ T.drop (T.length - k)) :
    ∀ (s x y : Str), lowerStr s = x ++ (T ++ y) →
      ∃ x2 y2, lowerStr (replCI p r s) = x2 ++ (T ++ y2) := by
  have H : ∀ (n : Nat) (s : Str), s.length ≤ n → ∀ (x y : Str),
      lowerStr s = x ++ (T ++ y) →
      ∃ x2 y2, lowerStr (replCI p r s) = x2 ++ (T ++ y2) := by
    intro n
    induction n with
    | zero =>
      intro s hn x y hs
      exfalso
      have hs0 : s = [] := List.length_eq_zero.mp (Nat.le_zero.mp hn)
      subst hs0
      have := congrArg List.length hs
      simp [lowerStr] at this
      have hT0 : T.length = 0 := by omega
      exact hT (List.length_eq_zero.mp hT0)
    | succ n ihn =>
      intro s hn x y hs
      cases s with
      | nil =>
        exfalso
        have := congrArg List.length hs
        simp [lowerStr] at this
        have hT0 : T.length = 0 := by omega
        exact hT (List.length_eq_zero.mp hT0)
      | cons c cs =>
        have hcsn : cs.length ≤ n := by
          simp only [List.length_cons] at hn
          omega
        cases x with
        | nil =>
          simp only [List.nil_append] at hs
          obtain ⟨y2, hy2⟩ := replCI_scan_inside p r T h1 h2 h4 (c :: cs) 0 y
            (List.length_pos.mpr hT) (by simpa using hs)
          exact ⟨[], y2, by simpa using hy2⟩
        | cons x0 xs =>
          by_cases hf : prefixCI p (c :: cs) = true ∧ p ≠ []
          · -- the pattern fires at the current position
            have hdropn : ((c :: cs).drop p.length).length ≤ n := by
              have hp : 0 < p.length := List.length_pos.mpr hf.2
              simp only [List.length_drop, List.length_cons]
              omega
            have hdec := prefixCI_decomp hf.1
            rw [hs] at hdec
            -- hdec : (x0 :: xs) ++ (T ++ y) = lowerStr p ++ (rest lowered)
            rcases List.append_eq_append_iff.mp hdec.symm with ⟨a, ha, hrest⟩ | ⟨a, ha, hrest⟩
            · -- ha : x0 :: xs = lowerStr p ++ a — pattern entirely inside the prefix
              obtain ⟨x2, y2, hxy⟩ := ihn ((c :: cs).drop p.length) hdropn a y (by rw [hrest])
              refine ⟨lowerStr r ++ x2, y2, ?_⟩
              rw [replCI_cons_fire r hf, lowerStr_append, hxy, List.append_assoc]
            · -- ha : lowerStr p = (x0 :: xs) ++ a, hrest : T ++ y = a ++ rest
              rcases List.append_eq_append_iff.mp hrest.symm with ⟨b, hb, hwb⟩ | ⟨b, hb, hyw⟩
              · -- hb : T = a ++ b
                by_cases hanil : a = []
                · -- pattern ends exactly where T starts: recurse past it
                  subst hanil
                  simp only [List.nil_append] at hb
                  obtain ⟨x2, y2, hxy⟩ := ihn ((c :: cs).drop p.length) hdropn [] y
                    (by rw [hwb, ← hb, List.nil_append])
                  refine ⟨lowerStr r ++ x2, y2, ?_⟩
                  rw [replCI_cons_fire r hf, lowerStr_append, hxy, List.append_assoc]
                · by_cases hbnil : b = []
                  · -- T = a : pattern contains T at its end
                    exfalso
                    have hTa : T = a := by rw [hb, hbnil, List.append_nil]
                    have hcon : containsSub (lowerStr p) T = true := by
                      refine (containsSub_iff _ _).mpr ⟨x0 :: xs, [], ?_⟩
                      rw [ha, hTa, List.append_nil]
                    rw [h1] at hcon; cases hcon
                  · -- 0 < |a| < |T| : proper suffix of pattern = proper prefix of T
                    exfalso
                    have hk1 : 0 < a.length := List.length_pos.mpr hanil
                    have hk2 : a.length < T.length := by
                      have := congrArg List.length hb
                      simp only [List.length_append] at this
                      have := List.length_pos.mpr hbnil
                      omega
                    have hkq : a.length < (lowerStr p).length := by
                      have := congrArg List.length ha
                      simp only [List.length_append, List.length_cons] at this
                      omega
                    refine h3 a.length hk2 hk1 hkq ?_
                    have hqa : (lowerStr p).drop ((lowerStr p).length - a.length) = a := by
                      have hxl : (lowerStr p).length - a.length = (x0 :: xs).length := by
                        have := congrArg List.length ha
                        simp only [List.length_append] at this
                        omega
                      rw [hxl, ha]
                      exact List.drop_left _ _
                    have hta : T.take a.length = a := by
                      rw [hb]; exact List.take_left _ _
                    rw [hqa, hta]
              · -- hb : a = T ++ b : the pattern swallows all of T
                exfalso
                have hcon : containsSub (lowerStr p) T = true := by
                  refine (containsSub_iff _ _).mpr ⟨x0 :: xs, b, ?_⟩
                  rw [ha, hb, List.append_assoc]
                rw [h1] at hcon; cases hcon
          · -- no fire: copy one character and recurse
            rw [replCI_cons_nofire r hf]
            rw [lowerStr_cons, List.cons_append] at hs
            have hc : c.toLower = x0 := (List.cons.injEq _ _ _ _ ▸ hs).1
            have hcs : lowerStr cs = xs ++ (T ++ y) := (List.cons.injEq _ _ _ _ ▸ hs).2
            obtain ⟨x2, y2, hxy⟩ := ihn cs hcsn xs y hcs
            exact ⟨c.toLower :: x2, y2, by rw [lowerStr_cons, hxy, List.cons_append]⟩
  intro s x y hs
  exact H s.length s le_rfl x y hs



/-! ## Claim theorems -/

/-- C5: the message-level quality scorer returns exactly
`clamp(100 − 15·violations + 5·[patterns > 2] + 5·[markers > 0], 0, 100)`;
the response-level scorer returns exactly
`clamp(100 − 20·violations − 10·[no framework word ∧ length > 100] −
5·[no question mark ∧ length > 50], 0, 100)`; both results always lie in
`[0, 100]`. -/
theorem C5_quality_score_formulas (m : Message) (response userMessage : Str) :
    calculateResponseQuality m =
      max 0 (min 100 (100 - 15 * (m.boundaryViolations.length : Int) +
        (if m.psychologicalPatterns.length > 2 then 5 else 0) +
        (if m.emotionalMarkers.length > 0 then 5 else 0))) ∧
    0 ≤ calculateResponseQuality m ∧ calculateResponseQuality m ≤ 100 ∧
    (assessResponseQuality response userMessage).score =
      max 0 (min 100 (100 -
        20 * ((validateResponse response userMessage).length : Int) -
        (if psychTerms.any (fun t => containsSub (lowerStr response) t) = false ∧
            100 < response.length then 10 else 0) -
        (if response.any (fun c => c = qmark) = false ∧ 50 < response.length
          then 5 else 0))) ∧
    0 ≤ (assessResponseQuality response userMessage).score ∧
    (assessResponseQuality response userMessage).score ≤ 100 := by
  refine ⟨?_, ?_, ?_, ?_, ?_, ?_⟩
  · simp only [calculateResponseQuality]
    split_ifs <;> omega
  · simp only [calculateResponseQuality]
    split_ifs <;> omega
  · simp only [calculateResponseQuality]
    split_ifs <;> omega
  · simp only [assessResponseQuality, Bool.and_eq_true, Bool.not_eq_true',
      decide_eq_true_eq, gt_iff_lt]
    split_ifs <;> omega
  · simp only [assessResponseQuality, Bool.and_eq_true, Bool.not_eq_true',
      decide_eq_true_eq, gt_iff_lt]
    split_ifs <;> omega
  · simp only [assessResponseQuality, Bool.and_eq_true, Bool.not_eq_true',
      decide_eq_true_eq, gt_iff_lt]
    split_ifs <;> omega

/-- C9: the fine-tuned safe-response selector ignores its violation-list
argument entirely — its output depends only on the user message — whereas
`createSafeRedirectResponse` does inspect the violations first (witnessed by
a message mentioning a song, routed differently depending on whether a
`personal experiences` violation is present). -/
theorem C9_analysis_redirect_ignores_violations :
    (∀ (userMessage : Str) (v1 v2 : List Str),
      createSafeAnalysisResponse userMessage v1 =
        createSafeAnalysisResponse userMessage v2) ∧
    createSafeRedirectResponse "I love this song".toList
        ["CRITICAL: AI claiming personal experiences".toList] ≠
      createSafeRedirectResponse "I love this song".toList [] := by
  refine ⟨fun userMessage v1 v2 => rfl, ?_⟩
  decide

theorem hasEmotionalContent_iff (messages : List Message) :
    hasEmotionalContent messages = true ↔
      ∃ m ∈ messages, m.role = Role.user ∧ m.emotionalMarkers ≠ [] := by
  simp [hasEmotionalContent, userMessagesOf, List.any_eq_true, List.mem_filter,
    decide_eq_true_eq, List.length_pos, and_assoc]

theorem hasPsychologicalContent_iff (messages : List Message) :
    hasPsychologicalContent messages = true ↔
      ∃ m ∈ messages, m.role = Role.user ∧ 2 < m.psychologicalPatterns.length := by
  simp [hasPsychologicalContent, userMessagesOf, List.any_eq_true,
    List.mem_filter, decide_eq_true_eq, and_assoc]

theorem hasDeepExploration_iff (messages : List Message) :
    hasDeepExploration messages = true ↔
      ∃ m ∈ messages, m.role = Role.user ∧ 200 < m.content.length ∧
        (containsSub (lowerStr m.content) "childhood".toList = true ∨
         containsSub (lowerStr m.content) "trauma".toList = true ∨
         containsSub (lowerStr m.content) "family".toList = true ∨
         containsSub (lowerStr m.content) "relationship".toList = true) := by
  simp [hasDeepExploration, userMessagesOf, List.any_eq_true, List.mem_filter,
    decide_eq_true_eq, Bool.and_eq_true, Bool.or_eq_true, and_assoc, or_assoc]

/-- C2: the depth classifier cascade — below 4 messages `surface`
(unconditionally, so a fresh history is `surface`); then below 8 messages or
lacking both emotional and psychological user content `emerging`; then below
15 messages or lacking deep exploration (a user message over 200 characters
mentioning childhood/trauma/family/relationship) `deep`; otherwise
`integration` — tested in that order. -/
theorem C2_depth_classifier_cascade (messages : List Message) :
    (messages.length < 4 →
      assessConversationDepthFn messages = Depth.surface) ∧
    (4 ≤ messages.length →
      (messages.length < 8 ∨
        (¬(∃ m ∈ messages, m.role = Role.user ∧ m.emotionalMarkers ≠ []) ∧
         ¬(∃ m ∈ messages, m.role = Role.user ∧
            2 < m.psychologicalPatterns.length))) →
      assessConversationDepthFn messages = Depth.emerging) ∧
    (8 ≤ messages.length →
      ((∃ m ∈ messages, m.role = Role.user ∧ m.emotionalMarkers ≠ []) ∨
       (∃ m ∈ messages, m.role = Role.user ∧
          2 < m.psychologicalPatterns.length)) →
      (messages.length < 15 ∨
        ¬(∃ m ∈ messages, m.role = Role.user ∧ 200 < m.content.length ∧
          (containsSub (lowerStr m.content) "childhood".toList = true ∨
           containsSub (lowerStr m.content) "trauma".toList = true ∨
           containsSub (lowerStr m.content) "family".toList = true ∨
           containsSub (lowerStr m.content) "relationship".toList = true))) →
      assessConversationDepthFn messages = Depth.deep) ∧
    (15 ≤ messages.length →
      ((∃ m ∈ messages, m.role = Role.user ∧ m.emotionalMarkers ≠ []) ∨
       (∃ m ∈ messages, m.role = Role.user ∧
          2 < m.psychologicalPatterns.length)) →
      (∃ m ∈ messages, m.role = Role.user ∧ 200 < m.content.length ∧
        (containsSub (lowerStr m.content) "childhood".toList = true ∨
         containsSub (lowerStr m.content) "trauma".toList = true ∨
         containsSub (lowerStr m.content) "family".toList = true ∨
         containsSub (lowerStr m.content) "relationship".toList = true)) →
      assessConversationDepthFn messages = Depth.integration) ∧
    assessConversationDepthFn [] = Depth.surface := by
  refine ⟨?_, ?_, ?_, ?_, by decide⟩
  · intro h
    simp [assessConversationDepthFn, h]
  · intro h1 h2
    have hcond : (decide (messages.length < 8) ||
        (!hasEmotionalContent messages && !hasPsychologicalContent messages)) =
          true := by
      rcases h2 with h2 | ⟨hne, hnp⟩
      · simp [h2]
      · have he : hasEmotionalContent messages = false :=
          Bool.eq_false_iff.mpr
            (fun ht => hne ((hasEmotionalContent_iff messages).mp ht))
        have hp : hasPsychologicalContent messages = false :=
          Bool.eq_false_iff.mpr
            (fun ht => hnp ((hasPsychologicalContent_iff messages).mp ht))
        simp [he, hp]
    simp [assessConversationDepthFn, hcond, show ¬messages.length < 4 by omega]
  · intro h1 h2 h3
    have h2b : (!hasEmotionalContent messages &&
        !hasPsychologicalContent messages) = false := by
      rcases h2 with h2 | h2
      · simp [(hasEmotionalContent_iff messages).mpr h2]
      · simp [(hasPsychologicalContent_iff messages).mpr h2]
    have hcond3 : (decide (messages.length < 15) ||
        !hasDeepExploration messages) = true := by
      rcases h3 with h3 | h3
      · simp [h3]
      · simp [Bool.eq_false_iff.mpr
          (fun ht => h3 ((hasDeepExploration_iff messages).mp ht))]
    simp [assessConversationDepthFn, h2b, hcond3,
      show ¬messages.length < 4 by omega, show ¬messages.length < 8 by omega]
  · intro h1 h2 h3
    have h2b : (!hasEmotionalContent messages &&
        !hasPsychologicalContent messages) = false := by
      rcases h2 with h2 | h2
      · simp [(hasEmotionalContent_iff messages).mpr h2]
      · simp [(hasPsychologicalContent_iff messages).mpr h2]
    have hd : hasDeepExploration messages = true :=
      (hasDeepExploration_iff messages).mpr h3
    simp [assessConversationDepthFn, h2b, hd,
      show ¬messages.length < 4 by omega, show ¬messages.length < 8 by omega,
      show ¬messages.length < 15 by omega]

/-- Witness for C2 at a concrete input: the empty history classifies as
`surface`. -/
theorem C2_depth_classifier_cascade_witness :
    assessConversationDepthFn [] = Depth.surface :=
  (C2_depth_classifier_cascade []).1 (by decide)

/-- C8: holding the three content flags fixed, the depth classification is
monotone in message count — appending messages that do not change the
emotional-content, psychological-content and deep-exploration flags never
moves the label to an earlier one in
`surface < emerging < deep < integration`. -/
theorem C8_depth_monotone_in_count (messages extra : List Message)
    (hE : hasEmotionalContent (messages ++ extra) =
      hasEmotionalContent messages)
    (hP : hasPsychologicalContent (messages ++ extra) =
      hasPsychologicalContent messages)
    (hD : hasDeepExploration (messages ++ extra) =
      hasDeepExploration messages) :
    depthRank (assessConversationDepthFn messages) ≤
      depthRank (assessConversationDepthFn (messages ++ extra)) := by
  have hlen : messages.length ≤ (messages ++ extra).length := by simp
  unfold assessConversationDepthFn
  rw [hE, hP, hD]
  cases he : hasEmotionalContent messages <;>
    cases hp : hasPsychologicalContent messages <;>
      cases hd : hasDeepExploration messages <;>
        simp only [Bool.not_false, Bool.not_true, Bool.and_false, Bool.and_true,
          Bool.false_and, Bool.true_and, Bool.and_self, Bool.or_true,
          Bool.or_false, Bool.or_eq_true, decide_eq_true_eq] <;>
        split_ifs <;>
          first
            | rfl
            | (simp only [depthRank]; omega)
            | (exfalso; omega)
            | decide

/-- Witness for C8 at a concrete input: growing an empty history by five
assistant messages (which leave all three flags `false`) cannot lower the
label. -/
theorem C8_depth_monotone_in_count_witness :
    depthRank (assessConversationDepthFn []) ≤
      depthRank (assessConversationDepthFn
        ([] ++ List.replicate 5
          ({ id := 0, role := Role.assistant, content := [], timestamp := 0,
             emotionalMarkers := [], psychologicalPatterns := [],
             validationScore := none, boundaryViolations := [] } : Message))) :=
  C8_depth_monotone_in_count [] _ (by decide) (by decide) (by decide)

/-- C10: every message appended by `addMessage` is constructed with an empty
boundary-violation list, freshly extracted emotional markers and
psychological patterns, and a validation score of 100 for assistant
messages (absent for user messages) — whatever derived fields the caller
supplied in the draft. -/
theorem C10_addMessage_construction (message : MessageDraft) (newId now : Nat)
    (st : AppState) (c : AnalysisSession) (hc : st.currentSession = some c) :
    ∃ c2, (addMessage message newId now st).currentSession = some c2 ∧
      c2.messages = c.messages ++
        [{ id := newId, role := message.role, content := message.content,
           timestamp := now,
           emotionalMarkers := extractEmotionalMarkers message.content,
           psychologicalPatterns := extractPsychologicalPatterns message.content,
           validationScore :=
             if message.role = Role.user then none else some 100,
           boundaryViolations := [] }] := by
  by_cases hrole : message.role = Role.user
  · simp [addMessage, hc, hrole, assessConversationDepthAction,
      generateConversationSuggestionsAction]
  · simp [addMessage, hc, hrole]

/-- Witness for C10 at a concrete input: a user draft carrying bogus
derived fields is appended with those fields recomputed and reset. -/
theorem C10_addMessage_construction_witness :
    ∃ c2,
      (addMessage
        { role := Role.user, content := "hello".toList,
          emotionalMarkers := ["bogus".toList],
          psychologicalPatterns := ["bogus".toList],
          validationScore := some 3, boundaryViolations := ["bogus".toList] }
        2 9
        { currentSession := some
            { id := 7, title := [], messages := [], createdAt := 0,
              updatedAt := 0, type := SessionType.music,
              conversationState := createDefaultConversationState }
          sessions := []
          inputText := []
          currentConversationDepth := Depth.surface
          suggestedFollowUps := []
          systemHealthScore := 100
          totalBoundaryViolations := 0 }).currentSession = some c2 ∧
      c2.messages =
        ({ id := 7, title := [], messages := [], createdAt := 0,
           updatedAt := 0, type := SessionType.music,
           conversationState := createDefaultConversationState } :
            AnalysisSession).messages ++
        [{ id := 2, role := Role.user, content := "hello".toList,
           timestamp := 9,
           emotionalMarkers := extractEmotionalMarkers "hello".toList,
           psychologicalPatterns := extractPsychologicalPatterns "hello".toList,
           validationScore :=
             if Role.user = Role.user then none else some 100,
           boundaryViolations := [] }] :=
  C10_addMessage_construction _ 2 9 _ _ rfl

/-- C3 counterexample: when the violation list contains a
`personal experiences` label, a user message mentioning a song is routed to
the psychological-significance redirect, not to the music redirect that the
claim's substring routing prescribes. -/
theorem C3_counterexample :
    createSafeRedirectResponse "I love this song".toList
        ["CRITICAL: AI claiming personal experiences".toList] =
      PsychRedirects.psychological_significance ∧
    createSafeRedirectResponse "I love this song".toList
        ["CRITICAL: AI claiming personal experiences".toList] ≠
      PsychRedirects.music_influence := by
  constructor
  · decide
  · decide

/-- C3 (amended): the safe-redirect selector always returns a non-empty
string of the fixed redirect table; a violation label containing
`personal experiences` is routed first, to the psychological-significance
redirect; otherwise the reply is chosen by substring tests on the user
message, in source priority order: music/album/song, then
creative/art/inspired, then childhood/early/family, then
attachment/relationship, then trauma/difficult/process, then the generic
emotional-connection fallback. -/
theorem C3_redirect_selector_table (userMessage : Str) (violations : List Str) :
    createSafeRedirectResponse userMessage violations ∈ psychologicalRedirects ∧
    createSafeRedirectResponse userMessage violations ≠ [] ∧
    (violations.any (fun v => containsSub v "personal experiences".toList) =
        true →
      createSafeRedirectResponse userMessage violations =
        PsychRedirects.psychological_significance) ∧
    (violations.any (fun v => containsSub v "personal experiences".toList) =
        false →
      ((containsSub (lowerStr userMessage) "music".toList ||
        containsSub (lowerStr userMessage) "album".toList ||
        containsSub (lowerStr userMessage) "song".toList) = true →
        createSafeRedirectResponse userMessage violations =
          PsychRedirects.music_influence) ∧
      ((containsSub (lowerStr userMessage) "music".toList ||
        containsSub (lowerStr userMessage) "album".toList ||
        containsSub (lowerStr userMessage) "song".toList) = false →
       (containsSub (lowerStr userMessage) "creative".toList ||
        containsSub (lowerStr userMessage) "art".toList ||
        containsSub (lowerStr userMessage) "inspired".toList) = true →
        createSafeRedirectResponse userMessage violations =
          PsychRedirects.creative_inspiration) ∧
      ((containsSub (lowerStr userMessage) "music".toList ||
        containsSub (lowerStr userMessage) "album".toList ||
        containsSub (lowerStr userMessage) "song".toList) = false →
       (containsSub (lowerStr userMessage) "creative".toList ||
        containsSub (lowerStr userMessage) "art".toList ||
        containsSub (lowerStr userMessage) "inspired".toList) = false →
       (containsSub (lowerStr userMessage) "childhood".toList ||
        containsSub (lowerStr userMessage) "early".toList ||
        containsSub (lowerStr userMessage) "family".toList) = true →
        createSafeRedirectResponse userMessage violations =
          PsychRedirects.formative_experience) ∧
      ((containsSub (lowerStr userMessage) "music".toList ||
        containsSub (lowerStr userMessage) "album".toList ||
        containsSub (lowerStr userMessage) "song".toList) = false →
       (containsSub (lowerStr userMessage) "creative".toList ||
        containsSub (lowerStr userMessage) "art".toList ||
        containsSub (lowerStr userMessage) "inspired".toList) = false →
       (containsSub (lowerStr userMessage) "childhood".toList ||
        containsSub (lowerStr userMessage) "early".toList ||
        containsSub (lowerStr userMessage) "family".toList) = false →
       (containsSub (lowerStr userMessage) "attachment".toList ||
        containsSub (lowerStr userMessage) "relationship".toList) = true →
        createSafeRedirectResponse userMessage violations =
          PsychRedirects.attachment_pattern) ∧
      ((containsSub (lowerStr userMessage) "music".toList ||
        containsSub (lowerStr userMessage) "album".toList ||
        containsSub (lowerStr userMessage) "song".toList) = false →
       (containsSub (lowerStr userMessage) "creative".toList ||
        containsSub (lowerStr userMessage) "art".toList ||
        containsSub (lowerStr userMessage) "inspired".toList) = false →
       (containsSub (lowerStr userMessage) "childhood".toList ||
        containsSub (lowerStr userMessage) "early".toList ||
        containsSub (lowerStr userMessage) "family".toList) = false →
       (containsSub (lowerStr userMessage) "attachment".toList ||
        containsSub (lowerStr userMessage) "relationship".toList) = false →
       (containsSub (lowerStr userMessage) "trauma".toList ||
        containsSub (lowerStr userMessage) "difficult".toList ||
        containsSub (lowerStr userMessage) "process".toList) = true →
        createSafeRedirectResponse userMessage violations =
          PsychRedirects.trauma_processing) ∧
      ((containsSub (lowerStr userMessage) "music".toList ||
        containsSub (lowerStr userMessage) "album".toList ||
        containsSub (lowerStr userMessage) "song".toList) = false →
       (containsSub (lowerStr userMessage) "creative".toList ||
        containsSub (lowerStr userMessage) "art".toList ||
        containsSub (lowerStr userMessage) "inspired".toList) = false →
       (containsSub (lowerStr userMessage) "childhood".toList ||
        containsSub (lowerStr userMessage) "early".toList ||
        containsSub (lowerStr userMessage) "family".toList) = false →
       (containsSub (lowerStr userMessage) "attachment".toList ||
        containsSub (lowerStr userMessage) "relationship".toList) = false →
       (containsSub (lowerStr userMessage) "trauma".toList ||
        containsSub (lowerStr userMessage) "difficult".toList ||
        containsSub (lowerStr userMessage) "process".toList) = false →
        createSafeRedirectResponse userMessage violations =
          PsychRedirects.emotional_connection)) := by
  refine ⟨?_, ?_, ?_, ?_⟩
  · simp only [createSafeRedirectResponse]
    split_ifs <;> simp [psychologicalRedirects]
  · simp only [createSafeRedirectResponse]
    split_ifs <;> decide
  · intro hv
    simp only [createSafeRedirectResponse]
    rw [if_pos hv]
  · intro hv
    have hv2 : ¬((violations.any
        (fun v => containsSub v "personal experiences".toList)) = true) := by
      rw [hv]; decide
    refine ⟨?_, ?_, ?_, ?_, ?_, ?_⟩
    · intro h1
      simp only [createSafeRedirectResponse]
      rw [if_neg hv2, if_pos h1]
    · intro h1 h2
      simp only [createSafeRedirectResponse]
      rw [if_neg hv2, if_neg (by rw [h1]; decide), if_pos h2]
    · intro h1 h2 h3
      simp only [createSafeRedirectResponse]
      rw [if_neg hv2, if_neg (by rw [h1]; decide), if_neg (by rw [h2]; decide), if_pos h3]
    · intro h1 h2 h3 h4
      simp only [createSafeRedirectResponse]
      rw [if_neg hv2, if_neg (by rw [h1]; decide), if_neg (by rw [h2]; decide),
        if_neg (by rw [h3]; decide), if_pos h4]
    · intro h1 h2 h3 h4 h5
      simp only [createSafeRedirectResponse]
      rw [if_neg hv2, if_neg (by rw [h1]; decide), if_neg (by rw [h2]; decide),
        if_neg (by rw [h3]; decide), if_neg (by rw [h4]; decide), if_pos h5]
    · intro h1 h2 h3 h4 h5
      simp only [createSafeRedirectResponse]
      rw [if_neg hv2, if_neg (by rw [h1]; decide), if_neg (by rw [h2]; decide),
        if_neg (by rw [h3]; decide), if_neg (by rw [h4]; decide), if_neg (by rw [h5]; decide)]

/-- Witness for C3's amended routing at a concrete input: an album mention
with an empty violation list yields the music redirect. -/
theorem C3_redirect_selector_table_witness :
    createSafeRedirectResponse "that album".toList [] =
      PsychRedirects.music_influence :=
  ((C3_redirect_selector_table "that album".toList []).2.2.2
    (by decide)).1 (by decide)

/-- C4 counterexample: in the second (legacy) store variant, calling
`updateLastMessage` on a session whose last message is a user message is
not a no-op — the session's `updatedAt` timestamp is refreshed. -/
theorem C4_counterexample :
    (Legacy.updateLastMessage "new text".toList 5
        { currentSession := some
            { id := 1, title := [], messages :=
                [{ id := 1, role := Role.user, content := "hi".toList,
                   timestamp := 0 }],
              createdAt := 0, updatedAt := 0, type := SessionType.personality }
          sessions :=
            [{ id := 1, title := [], messages :=
                [{ id := 1, role := Role.user, content := "hi".toList,
                   timestamp := 0 }],
               createdAt := 0, updatedAt := 0,
               type := SessionType.personality }]
          inputText := [] } ≠
      { currentSession := some
          { id := 1, title := [], messages :=
              [{ id := 1, role := Role.user, content := "hi".toList,
                 timestamp := 0 }],
            createdAt := 0, updatedAt := 0, type := SessionType.personality }
        sessions :=
          [{ id := 1, title := [], messages :=
              [{ id := 1, role := Role.user, content := "hi".toList,
                 timestamp := 0 }],
             createdAt := 0, updatedAt := 0,
             type := SessionType.personality }]
        inputText := [] }) ∧
    (Legacy.updateLastMessage "new text".toList 5
        { currentSession := some
            { id := 1, title := [], messages :=
                [{ id := 1, role := Role.user, content := "hi".toList,
                   timestamp := 0 }],
              createdAt := 0, updatedAt := 0, type := SessionType.personality }
          sessions :=
            [{ id := 1, title := [], messages :=
                [{ id := 1, role := Role.user, content := "hi".toList,
                   timestamp := 0 }],
               createdAt := 0, updatedAt := 0,
               type := SessionType.personality }]
          inputText := [] }).currentSession.map
        Legacy.AnalysisSession.updatedAt = some 5 := by
  constructor
  · decide
  · decide

/-- C4 (amended): with a user message last, `updateLastMessage` leaves the
message list, content, conversation state and timestamps unchanged; the
only state change in the enhanced store is the unconditional system-health
recomputation that follows every update, while the legacy variant
additionally refreshes the active session's `updatedAt` timestamp (in both
the reference and the collection). -/
theorem C4_updateLastMessage_user_noop :
    (∀ (content : Str) (validationScore : Nat) (violations : List Str)
        (now : Nat) (st : AppState) (c : AnalysisSession) (lm : Message),
      st.currentSession = some c → c.messages.getLast? = some lm →
      lm.role = Role.user →
      updateLastMessage content validationScore violations now st =
        updateSystemHealthAction st) ∧
    (∀ (content : Str) (now : Nat) (st : Legacy.AppState)
        (c : Legacy.AnalysisSession) (lm : Legacy.Message),
      st.currentSession = some c → c.messages.getLast? = some lm →
      lm.role = Role.user →
      Legacy.updateLastMessage content now st =
        { st with
          currentSession := some { c with updatedAt := now }
          sessions := st.sessions.map
            (fun s => if s.id = c.id then { c with updatedAt := now }
              else s) }) := by
  constructor
  · intro content validationScore violations now st c lm hc hl hrole
    simp [updateLastMessage, hc, hl, hrole]
  · intro content now st c lm hc hl hrole
    simp [Legacy.updateLastMessage, hc, hl, hrole]

/-- Witness for C4's amended statement at a concrete input (enhanced
store). -/
theorem C4_updateLastMessage_user_noop_witness :
    updateLastMessage "x".toList 100 [] 5
        { currentSession := some
            { id := 1, title := [], messages :=
                [{ id := 1, role := Role.user, content := "hi".toList,
                   timestamp := 0, emotionalMarkers := [],
                   psychologicalPatterns := [], validationScore := none,
                   boundaryViolations := [] }],
              createdAt := 0, updatedAt := 0, type := SessionType.music,
              conversationState := createDefaultConversationState }
          sessions := []
          inputText := []
          currentConversationDepth := Depth.surface
          suggestedFollowUps := []
          systemHealthScore := 100
          totalBoundaryViolations := 0 } =
      updateSystemHealthAction
        { currentSession := some
            { id := 1, title := [], messages :=
                [{ id := 1, role := Role.user, content := "hi".toList,
                   timestamp := 0, emotionalMarkers := [],
                   psychologicalPatterns := [], validationScore := none,
                   boundaryViolations := [] }],
              createdAt := 0, updatedAt := 0, type := SessionType.music,
              conversationState := createDefaultConversationState }
          sessions := []
          inputText := []
          currentConversationDepth := Depth.surface
          suggestedFollowUps := []
          systemHealthScore := 100
          totalBoundaryViolations := 0 } :=
  C4_updateLastMessage_user_noop.1 "x".toList 100 [] 5 _ _ _ rfl rfl rfl

/-- C6: a successful `updateLastMessage` (assistant message last) adds the
length of the violation list to the session's cumulative counter and sets
the running quality average to the two-term blend
`(previous average + new quality score) / 2`, the score being
`calculateResponseQuality` of the rewritten message. -/
theorem C6_updateLastMessage_blend (content : Str) (validationScore : Nat)
    (violations : List Str) (now : Nat) (st : AppState)
    (c : AnalysisSession) (lm : Message)
    (hc : st.currentSession = some c) (hl : c.messages.getLast? = some lm)
    (hrole : lm.role = Role.assistant) :
    ∃ c2,
      (updateLastMessage content validationScore violations now
          st).currentSession = some c2 ∧
      c2.conversationState.boundary_violations_count =
        c.conversationState.boundary_violations_count + violations.length ∧
      c2.conversationState.response_quality_average =
        (c.conversationState.response_quality_average +
          ((calculateResponseQuality
            { lm with
              content := content
              boundaryViolations := violations
              emotionalMarkers := extractEmotionalMarkers content
              psychologicalPatterns := extractPsychologicalPatterns content }) :
            ℚ)) / 2 := by
  simp [updateLastMessage, updateSystemHealthAction, hc, hl, hrole]

/-- Witness for C6 at a concrete input: one violation raises the counter
from 0 to 1 and blends the default average 100 with the new score. -/
theorem C6_updateLastMessage_blend_witness :
    ∃ c2,
      (updateLastMessage "ok".toList 80 ["CRITICAL: x".toList] 5
          { currentSession := some
              { id := 1, title := [], messages :=
                  [{ id := 1, role := Role.assistant, content := [],
                     timestamp := 0, emotionalMarkers := [],
                     psychologicalPatterns := [], validationScore := some 100,
                     boundaryViolations := [] }],
                createdAt := 0, updatedAt := 0, type := SessionType.music,
                conversationState := createDefaultConversationState }
            sessions := []
            inputText := []
            currentConversationDepth := Depth.surface
            suggestedFollowUps := []
            systemHealthScore := 100
            totalBoundaryViolations := 0 }).currentSession = some c2 ∧
      c2.conversationState.boundary_violations_count =
        createDefaultConversationState.boundary_violations_count +
          ["CRITICAL: x".toList].length ∧
      c2.conversationState.response_quality_average =
        (createDefaultConversationState.response_quality_average +
          ((calculateResponseQuality
            { id := 1, role := Role.assistant, content := "ok".toList,
              timestamp := 0,
              emotionalMarkers := extractEmotionalMarkers "ok".toList,
              psychologicalPatterns := extractPsychologicalPatterns "ok".toList,
              validationScore := some 100,
              boundaryViolations := ["CRITICAL: x".toList] }) : ℚ)) / 2 :=
  C6_updateLastMessage_blend "ok".toList 80 ["CRITICAL: x".toList] 5 _
    { id := 1, title := [], messages :=
        [{ id := 1, role := Role.assistant, content := [], timestamp := 0,
           emotionalMarkers := [], psychologicalPatterns := [],
           validationScore := some 100, boundaryViolations := [] }],
      createdAt := 0, updatedAt := 0, type := SessionType.music,
      conversationState := createDefaultConversationState }
    { id := 1, role := Role.assistant, content := [], timestamp := 0,
      emotionalMarkers := [], psychologicalPatterns := [],
      validationScore := some 100, boundaryViolations := [] }
    rfl rfl rfl

theorem sessions_id_inj {l : List AnalysisSession}
    (hp : l.Pairwise (fun a b => a.id ≠ b.id))
    {a b : AnalysisSession} (ha : a ∈ l) (hb : b ∈ l) (hid : a.id = b.id) :
    a = b := by
  by_contra hne
  have hsym : Symmetric (fun a b : AnalysisSession => a.id ≠ b.id) :=
    fun x y h e => h e.symm
  exact hp.forall hsym ha hb hne hid

theorem assess_preserves (st : AppState) :
    (assessConversationDepthAction st).sessions = st.sessions ∧
    (assessConversationDepthAction st).currentSession = st.currentSession := by
  cases h : st.currentSession <;> simp [assessConversationDepthAction, h]

theorem suggest_preserves (st : AppState) :
    (generateConversationSuggestionsAction st).sessions = st.sessions ∧
    (generateConversationSuggestionsAction st).currentSession =
      st.currentSession := by
  cases h : st.currentSession <;>
    simp [generateConversationSuggestionsAction, h]

theorem storeInv_of_eq {a b : AppState} (hs : b.sessions = a.sessions)
    (hc : b.currentSession = a.currentSession) (h : storeInv a) :
    storeInv b := by
  unfold storeInv at *
  rw [hs, hc]
  exact h

/-- Invariant preservation and timestamp monotonicity for states whose
post-image keeps the pre-state collection except for replacing the sessions
that share the current session's identifier by one updated session stamped
with the current time. -/
theorem replace_update_facts (st : AppState) (now : Nat)
    (hInv : storeInv st) (hClock : clockOK st now)
    (c upd : AnalysisSession) (hc : st.currentSession = some c)
    (hid : upd.id = c.id) (hcr : upd.createdAt = c.createdAt)
    (hup : upd.updatedAt = now)
    (post : AppState)
    (hps : post.sessions =
      st.sessions.map (fun s => if s.id = upd.id then upd else s))
    (hpc : post.currentSession = some upd) :
    storeInv post ∧ noTimestampDecrease st post := by
  obtain ⟨hpw, htimes, hcur⟩ := hInv
  obtain ⟨hct, s0, hs0mem, hs0id⟩ := hcur c hc
  have hcnow : c.updatedAt ≤ now := hClock.2 c hc
  refine ⟨⟨?_, ?_, ?_⟩, ?_⟩
  · rw [hps]
    refine List.Pairwise.map _ (fun a b hab => ?_) hpw
    by_cases ha : a.id = upd.id <;> by_cases hb : b.id = upd.id <;>
      simp [ha, hb] at hab ⊢ <;> omega
  · rw [hps]
    intro s' hs'
    rcases List.mem_map.mp hs' with ⟨s, hsmem, rfl⟩
    by_cases h : s.id = upd.id
    · simp only [h, if_true]
      rw [hcr, hup]
      exact le_trans hct hcnow
    · simp only [h, if_false]
      exact htimes s hsmem
  · intro c' hc'
    rw [hpc] at hc'
    injection hc' with h'
    subst h'
    refine ⟨by rw [hcr, hup]; exact le_trans hct hcnow, ?_⟩
    rw [hps]
    have hs0u : s0.id = upd.id := by rw [hid, ← hs0id]
    exact ⟨if s0.id = upd.id then upd else s0,
      List.mem_map_of_mem _ hs0mem, by simp [hs0u]⟩
  · intro s2 hs2 s1 hs1 hid12
    rw [hps] at hs2
    rcases List.mem_map.mp hs2 with ⟨s, hsmem, rfl⟩
    by_cases h : s.id = upd.id
    · simp only [h, if_true] at hid12 ⊢
      rw [hup]
      exact hClock.1 s1 hs1
    · simp only [h, if_false] at hid12 ⊢
      rw [sessions_id_inj hpw hs1 hsmem hid12]

/-- Invariant preservation for operations that leave the session collection
and the current-session reference unchanged. -/
theorem inv_of_preserved {st post : AppState} (hInv : storeInv st)
    (hs : post.sessions = st.sessions)
    (hc : post.currentSession = st.currentSession) :
    storeInv post ∧ noTimestampDecrease st post := by
  refine ⟨storeInv_of_eq hs hc hInv, ?_⟩
  intro s2 hs2 s1 hs1 hid
  rw [hs] at hs2
  rw [sessions_id_inj hInv.1 hs1 hs2 hid]

/-- C7 (amended): assuming the store invariant, a wall clock no older than
any stored timestamp, a fresh id for session creation, and that
`setCurrentSession` is only handed `none` or a well-timed member of the
collection, every mutating operation preserves the invariant (distinct
session ids, `createdAt ≤ updatedAt`, active session a member of the
collection) and never decreases a session timestamp; and deleting the only
existing session leaves the active reference `none` and the collection
empty. -/
theorem C7_store_invariants (st : AppState) (now newId : Nat)
    (hInv : storeInv st) (hClock : clockOK st now) :
    (∀ type, (∀ s ∈ st.sessions, s.id ≠ newId) →
      storeInv (createNewSession type newId now st) ∧
      noTimestampDecrease st (createNewSession type newId now st)) ∧
    (∀ sOpt, (∀ c, sOpt = some c → c.createdAt ≤ c.updatedAt ∧
        ∃ s ∈ st.sessions, s.id = c.id) →
      storeInv (setCurrentSession sOpt st) ∧
      noTimestampDecrease st (setCurrentSession sOpt st)) ∧
    (∀ draft, storeInv (addMessage draft newId now st) ∧
      noTimestampDecrease st (addMessage draft newId now st)) ∧
    (∀ content validationScore violations,
      storeInv (updateLastMessage content validationScore violations now st) ∧
      noTimestampDecrease st
        (updateLastMessage content validationScore violations now st)) ∧
    (∀ sessionId, storeInv (deleteSession sessionId st) ∧
      noTimestampDecrease st (deleteSession sessionId st)) ∧
    (∀ s, st.sessions = [s] →
      (deleteSession s.id st).currentSession = none ∧
      (deleteSession s.id st).sessions = []) := by
  refine ⟨?_, ?_, ?_, ?_, ?_, ?_⟩
  · -- createNewSession
    intro type hFresh
    constructor
    · refine ⟨?_, ?_, ?_⟩
      · simp only [createNewSession]
        exact List.pairwise_cons.mpr
          ⟨fun b hb e => hFresh b hb e.symm, hInv.1⟩
      · simp only [createNewSession]
        intro s hs
        rcases List.mem_cons.mp hs with rfl | hs
        · exact le_refl now
        · exact hInv.2.1 s hs
      · intro c hc
        simp only [createNewSession] at hc
        injection hc with h'
        subst h'
        exact ⟨le_refl now, _, List.mem_cons_self _ _, rfl⟩
    · intro s2 hs2 s1 hs1 hid
      simp only [createNewSession] at hs2
      rcases List.mem_cons.mp hs2 with rfl | hs2
      · exact hClock.1 s1 hs1
      · rw [sessions_id_inj hInv.1 hs1 hs2 hid]
  · -- setCurrentSession
    intro sOpt hside
    constructor
    · exact ⟨hInv.1, hInv.2.1, fun c hc => hside c hc⟩
    · intro s2 hs2 s1 hs1 hid
      rw [sessions_id_inj hInv.1 hs1 hs2 hid]
  · -- addMessage
    intro draft
    cases hc : st.currentSession with
    | none =>
      have hpost : (addMessage draft newId now st).sessions = st.sessions ∧
          (addMessage draft newId now st).currentSession =
            st.currentSession := by
        by_cases hrole : draft.role = Role.user
        · simp [addMessage, hc, hrole, assessConversationDepthAction,
            generateConversationSuggestionsAction]
        · simp [addMessage, hc, hrole]
      exact inv_of_preserved hInv hpost.1 hpost.2
    | some c =>
      have hpost : ∃ upd : AnalysisSession,
          (addMessage draft newId now st).sessions =
            st.sessions.map (fun s => if s.id = upd.id then upd else s) ∧
          (addMessage draft newId now st).currentSession = some upd ∧
          upd.id = c.id ∧ upd.createdAt = c.createdAt ∧
          upd.updatedAt = now := by
        by_cases hrole : draft.role = Role.user
        · refine ⟨{ c with
              messages := c.messages ++
                [{ id := newId, role := draft.role, content := draft.content,
                   timestamp := now,
                   emotionalMarkers := extractEmotionalMarkers draft.content,
                   psychologicalPatterns :=
                     extractPsychologicalPatterns draft.content,
                   validationScore :=
                     if draft.role = Role.user then none else some 100,
                   boundaryViolations := [] }]
              updatedAt := now
              title :=
                if c.messages.length = 0 ∧ draft.role = Role.user then
                  draft.content.take 60 ++
                    (if draft.content.length > 60 then "...".toList else [])
                else c.title }, ?_, ?_, rfl, rfl, rfl⟩ <;>
            simp [addMessage, hc, hrole, assessConversationDepthAction,
              generateConversationSuggestionsAction]
        · refine ⟨{ c with
              messages := c.messages ++
                [{ id := newId, role := draft.role, content := draft.content,
                   timestamp := now,
                   emotionalMarkers := extractEmotionalMarkers draft.content,
                   psychologicalPatterns :=
                     extractPsychologicalPatterns draft.content,
                   validationScore :=
                     if draft.role = Role.user then none else some 100,
                   boundaryViolations := [] }]
              updatedAt := now
              title :=
                if c.messages.length = 0 ∧ draft.role = Role.user then
                  draft.content.take 60 ++
                    (if draft.content.length > 60 then "...".toList else [])
                else c.title }, ?_, ?_, rfl, rfl, rfl⟩ <;>
            simp [addMessage, hc, hrole]
      obtain ⟨upd, h1, h2, h3, h4, h5⟩ := hpost
      exact replace_update_facts st now hInv hClock c upd hc h3 h4 h5 _ h1 h2
  · -- updateLastMessage
    intro content validationScore violations
    cases hc : st.currentSession with
    | none =>
      have hpost :
          (updateLastMessage content validationScore violations now
            st).sessions = st.sessions ∧
          (updateLastMessage content validationScore violations now
            st).currentSession = st.currentSession := by
        simp [updateLastMessage, hc, updateSystemHealthAction]
      exact inv_of_preserved hInv hpost.1 hpost.2
    | some c =>
      cases hl : c.messages.getLast? with
      | none =>
        have hpost :
            (updateLastMessage content validationScore violations now
              st).sessions = st.sessions ∧
            (updateLastMessage content validationScore violations now
              st).currentSession = st.currentSession := by
          simp [updateLastMessage, hc, hl, updateSystemHealthAction]
        exact inv_of_preserved hInv hpost.1 hpost.2
      | some lm =>
        by_cases hrole : lm.role = Role.assistant
        · have hpost : ∃ upd : AnalysisSession,
              (updateLastMessage content validationScore violations now
                st).sessions =
                st.sessions.map (fun s => if s.id = upd.id then upd else s) ∧
              (updateLastMessage content validationScore violations now
                st).currentSession = some upd ∧
              upd.id = c.id ∧ upd.createdAt = c.createdAt ∧
              upd.updatedAt = now := by
            refine ⟨{ c with
                messages := c.messages.dropLast ++
                  [{ lm with
                     content := content
                     psychologicalPatterns :=
                       extractPsychologicalPatterns content
                     emotionalMarkers := extractEmotionalMarkers content
                     validationScore := some validationScore
                     boundaryViolations := violations }]
                conversationState :=
                  { c.conversationState with
                    last_validation_score := validationScore
                    boundary_violations_count :=
                      c.conversationState.boundary_violations_count +
                        violations.length
                    response_quality_average :=
                      (c.conversationState.response_quality_average +
                        ((calculateResponseQuality
                          { lm with
                            content := content
                            boundaryViolations := violations
                            emotionalMarkers := extractEmotionalMarkers content
                            psychologicalPatterns :=
                              extractPsychologicalPatterns content }) : ℚ)) /
                        2 }
                updatedAt := now }, ?_, ?_, rfl, rfl, rfl⟩ <;>
              simp [updateLastMessage, hc, hl, hrole,
                updateSystemHealthAction]
          obtain ⟨upd, h1, h2, h3, h4, h5⟩ := hpost
          exact replace_update_facts st now hInv hClock c upd hc h3 h4 h5 _
            h1 h2
        · have hpost :
              (updateLastMessage content validationScore violations now
                st).sessions = st.sessions ∧
              (updateLastMessage content validationScore violations now
                st).currentSession = st.currentSession := by
            simp [updateLastMessage, hc, hl, hrole, updateSystemHealthAction]
          exact inv_of_preserved hInv hpost.1 hpost.2
  · -- deleteSession
    intro sessionId
    constructor
    · refine ⟨?_, ?_, ?_⟩
      · simp only [deleteSession]
        exact hInv.1.filter _
      · simp only [deleteSession]
        intro s hs
        exact hInv.2.1 s (List.mem_filter.mp hs).1
      · intro c' hc'
        simp only [deleteSession] at hc'
        cases hcur : st.currentSession with
        | none => rw [hcur] at hc'; cases hc'
        | some c =>
          rw [hcur] at hc'
          by_cases hcid : c.id = sessionId
          · simp only [hcid, if_true] at hc'
            have hmem : c' ∈ st.sessions.filter
                (fun s => !decide (s.id = sessionId)) :=
              List.mem_of_mem_head? (by rw [hc']; rfl)
            exact ⟨hInv.2.1 c' (List.mem_filter.mp hmem).1, c', hmem, rfl⟩
          · simp only [hcid, if_false] at hc'
            injection hc' with h'
            subst h'
            obtain ⟨hct, s0, hs0, hs0id⟩ := hInv.2.2 c hcur
            refine ⟨hct, s0, List.mem_filter.mpr ⟨hs0, ?_⟩, hs0id⟩
            simp [hs0id, hcid]
    · intro s2 hs2 s1 hs1 hid
      simp only [deleteSession] at hs2
      rw [sessions_id_inj hInv.1 hs1 (List.mem_filter.mp hs2).1 hid]
  · -- deleting the only session
    intro s hsingle
    constructor
    · simp only [deleteSession]
      cases hcur : st.currentSession with
      | none => simp
      | some c =>
        obtain ⟨hct, s0, hs0, hs0id⟩ := hInv.2.2 c hcur
        rw [hsingle] at hs0
        rcases List.mem_singleton.mp hs0 with rfl
        simp [hsingle, ← hs0id]
    · simp [deleteSession, hsingle]

/-- Witness for C7 at a concrete input: creating a session in the empty
store preserves the invariant. -/
theorem C7_store_invariants_witness :
    storeInv (createNewSession SessionType.music 1 0
      { currentSession := none, sessions := [], inputText := [],
        currentConversationDepth := Depth.surface, suggestedFollowUps := [],
        systemHealthScore := 100, totalBoundaryViolations := 0 }) ∧
    noTimestampDecrease
      { currentSession := none, sessions := [], inputText := [],
        currentConversationDepth := Depth.surface, suggestedFollowUps := [],
        systemHealthScore := 100, totalBoundaryViolations := 0 }
      (createNewSession SessionType.music 1 0
        { currentSession := none, sessions := [], inputText := [],
          currentConversationDepth := Depth.surface, suggestedFollowUps := [],
          systemHealthScore := 100, totalBoundaryViolations := 0 }) :=
  (C7_store_invariants _ 0 1
    ⟨List.Pairwise.nil, fun s hs => absurd hs (List.not_mem_nil s),
      fun c hc => Option.noConfusion hc⟩
    ⟨fun s hs => absurd hs (List.not_mem_nil s),
      fun c hc => Option.noConfusion hc⟩).1
    SessionType.music (fun s hs => absurd hs (List.not_mem_nil s))

/-- C7 counterexample: the claim as stated fails for `setCurrentSession`,
which performs no membership check — setting a session that is not in the
(empty) collection leaves a non-null active reference with no matching
member. -/
theorem C7_counterexample :
    storeInv
      { currentSession := none, sessions := [], inputText := [],
        currentConversationDepth := Depth.surface, suggestedFollowUps := [],
        systemHealthScore := 100, totalBoundaryViolations := 0 } ∧
    ¬ storeInv (setCurrentSession
        (some { id := 9, title := [], messages := [], createdAt := 0,
                updatedAt := 0, type := SessionType.music,
                conversationState := createDefaultConversationState })
        { currentSession := none, sessions := [], inputText := [],
          currentConversationDepth := Depth.surface,
          suggestedFollowUps := [], systemHealthScore := 100,
          totalBoundaryViolations := 0 }) := by
  constructor
  · exact ⟨List.Pairwise.nil, fun s hs => absurd hs (List.not_mem_nil s),
      fun c hc => Option.noConfusion hc⟩
  · intro h
    obtain ⟨-, s, hs, -⟩ := h.2.2 _ rfl
    exact absurd hs (List.not_mem_nil s)

/-- Chained case-insensitive replacements whose patterns cannot overlap `T`
keep `T` present in the lowercased text. -/
theorem foldl_replCI_keeps (T : Str) (hT : T ≠ []) :
    ∀ (prs : List (Str × Str)),
      (∀ pr ∈ prs, noOverlap (lowerStr pr.1) T) →
      ∀ s : Str, containsSub (lowerStr s) T = true →
      containsSub
        (lowerStr (prs.foldl (fun acc pr => replCI pr.1 pr.2 acc) s)) T =
        true := by
  intro prs
  induction prs with
  | nil => intro _ s h; simpa using h
  | cons pr rest ih =>
    intro hno s h
    rw [List.foldl_cons]
    apply ih (fun q hq => hno q (List.mem_cons_of_mem _ hq))
    obtain ⟨u, v, huv⟩ := (containsSub_iff _ _).mp h
    have hnov := hno pr (List.mem_cons_self _ _)
    obtain ⟨x2, y2, hxy⟩ := replCI_keeps pr.1 pr.2 T hT hnov.1 hnov.2.1
      hnov.2.2.1 hnov.2.2.2 s u v (by rw [huv, List.append_assoc])
    exact (containsSub_iff _ _).mpr ⟨x2, y2, by rw [hxy, List.append_assoc]⟩

/-- `addMessage` with a current session appends exactly the reconstructed
message and preserves the session type. -/
theorem addMessage_appends (message : MessageDraft) (newId now : Nat)
    (st : AppState) (c : AnalysisSession) (hc : st.currentSession = some c) :
    ∃ c2, (addMessage message newId now st).currentSession = some c2 ∧
      c2.messages = c.messages ++
        [{ id := newId, role := message.role, content := message.content,
           timestamp := now,
           emotionalMarkers := extractEmotionalMarkers message.content,
           psychologicalPatterns := extractPsychologicalPatterns message.content,
           validationScore :=
             if message.role = Role.user then none else some 100,
           boundaryViolations := [] }] ∧
      c2.type = c.type := by
  by_cases hrole : message.role = Role.user
  · simp [addMessage, hc, hrole, assessConversationDepthAction,
      generateConversationSuggestionsAction]
  · simp [addMessage, hc, hrole]

/-- A successful `updateLastMessage` replaces the last (assistant) message's
content and preserves its role and the session type. -/
theorem updateLastMessage_replaces (content : Str) (validationScore : Nat)
    (violations : List Str) (now : Nat) (st : AppState)
    (c : AnalysisSession) (lm : Message)
    (hc : st.currentSession = some c) (hl : c.messages.getLast? = some lm)
    (hrole : lm.role = Role.assistant) :
    ∃ c2 nl,
      (updateLastMessage content validationScore violations now
        st).currentSession = some c2 ∧
      c2.messages.getLast? = some nl ∧ nl.role = lm.role ∧
      nl.content = content ∧ c2.type = c.type := by
  simp [updateLastMessage, updateSystemHealthAction, hc, hl, hrole,
    List.getLast?_concat]

/-- C1: a `music` session holding the user message
"I love this song, it reminds me of summer," and an assistant message whose
content contains "I remember that song from my own childhood" triggers at
least one `CRITICAL`-prefixed violation from the validator, and after the
orchestrator's correction path (auto-correction, re-validation, safe
redirect through `updateLastMessage`) the stored assistant message no
longer contains the first-person "I remember" claim. -/
theorem C1_music_scenario (pre post0 : Str) (st0 : AppState)
    (id1 id2 id3 t1 t2 t3 t4 : Nat) :
    (∃ v ∈ validatePsychologyAnalysis
        (pre ++ "I remember that song from my own childhood".toList ++ post0)
        "I love this song, it reminds me of summer,".toList,
      prefEq "CRITICAL".toList v = true) ∧
    (∃ c lmsg,
      (processAssistantResponse
          (pre ++ "I remember that song from my own childhood".toList ++
            post0)
          "I love this song, it reminds me of summer,".toList t4
          (addMessage
            { role := Role.assistant,
              content := pre ++
                "I remember that song from my own childhood".toList ++ post0,
              emotionalMarkers := [], psychologicalPatterns := [],
              validationScore := none, boundaryViolations := [] } id3 t3
            (addMessage
              { role := Role.user,
                content :=
                  "I love this song, it reminds me of summer,".toList,
                emotionalMarkers := [], psychologicalPatterns := [],
                validationScore := none, boundaryViolations := [] } id2 t2
              (createNewSession SessionType.music id1 t1
                st0)))).currentSession = some c ∧
      c.type = SessionType.music ∧
      c.messages.getLast? = some lmsg ∧ lmsg.role = Role.assistant ∧
      containsSub (lowerStr lmsg.content) "i remember".toList = false) := by
  have hIR : containsSub
      (lowerStr (pre ++
        "I remember that song from my own childhood".toList ++ post0))
      "i remember".toList = true := by
    refine (containsSub_iff _ _).mpr
      ⟨lowerStr pre,
       " that song from my own childhood".toList ++ lowerStr post0, ?_⟩
    rw [lowerStr_append, lowerStr_append]
    have hmid :
        lowerStr "I remember that song from my own childhood".toList =
          "i remember".toList ++
            " that song from my own childhood".toList := by decide
    rw [hmid]
    simp [List.append_assoc]
  have hmatch1 : matchesAnyCI
      (pre ++ "I remember that song from my own childhood".toList ++ post0)
      personalStancePhrases = true := by
    unfold matchesAnyCI
    exact List.any_eq_true.mpr ⟨"i remember".toList, by decide, hIR⟩
  have hvmem : "CRITICAL: AI claiming personal experiences".toList ∈
      validatePsychologyAnalysis
        (pre ++ "I remember that song from my own childhood".toList ++ post0)
        "I love this song, it reminds me of summer,".toList := by
    simp only [validatePsychologyAnalysis]
    rw [if_pos hmatch1]
    simp
  have hcrit1 : (validatePsychologyAnalysis
      (pre ++ "I remember that song from my own childhood".toList ++ post0)
      "I love this song, it reminds me of summer,".toList).filter
        (fun v => containsSub v "CRITICAL".toList) ≠ [] :=
    List.ne_nil_of_mem (List.mem_filter.mpr ⟨hvmem, by decide⟩)
  have hcorr : containsSub
      (lowerStr (correctAnalysisLanguage
        (pre ++ "I remember that song from my own childhood".toList ++
          post0)))
      "i remember".toList = true := by
    unfold correctAnalysisLanguage
    exact foldl_replCI_keeps "i remember".toList (by decide) correctionPairs
      (by decide) _ hIR
  have hmatch2 : matchesAnyCI
      (correctAnalysisLanguage
        (pre ++ "I remember that song from my own childhood".toList ++
          post0))
      personalStancePhrases = true := by
    unfold matchesAnyCI
    exact List.any_eq_true.mpr ⟨"i remember".toList, by decide, hcorr⟩
  have hvmem2 : "CRITICAL: AI claiming personal experiences".toList ∈
      validatePsychologyAnalysis
        (correctAnalysisLanguage
          (pre ++ "I remember that song from my own childhood".toList ++
            post0))
        "I love this song, it reminds me of summer,".toList := by
    simp only [validatePsychologyAnalysis]
    rw [if_pos hmatch2]
    simp
  have hcrit2 : (validatePsychologyAnalysis
      (correctAnalysisLanguage
        (pre ++ "I remember that song from my own childhood".toList ++
          post0))
      "I love this song, it reminds me of summer,".toList).filter
        (fun v => containsSub v "CRITICAL".toList) ≠ [] :=
    List.ne_nil_of_mem (List.mem_filter.mpr ⟨hvmem2, by decide⟩)
  have hsafe : createSafeAnalysisResponse
      "I love this song, it reminds me of summer,".toList
      (validatePsychologyAnalysis
        (pre ++ "I remember that song from my own childhood".toList ++ post0)
        "I love this song, it reminds me of summer,".toList) =
      SafeRedirects.musical_analysis := rfl
  obtain ⟨c1, hcur1, hm1, hty1⟩ :
      ∃ c1, (createNewSession SessionType.music id1 t1
          st0).currentSession = some c1 ∧
        c1.messages = [] ∧ c1.type = SessionType.music :=
    ⟨_, rfl, rfl, rfl⟩
  obtain ⟨c2, hcur2, hm2, hty2⟩ := addMessage_appends
    { role := Role.user,
      content := "I love this song, it reminds me of summer,".toList,
      emotionalMarkers := [], psychologicalPatterns := [],
      validationScore := none, boundaryViolations := [] } id2 t2 _ c1 hcur1
  obtain ⟨c3, hcur3, hm3, hty3⟩ := addMessage_appends
    { role := Role.assistant,
      content := pre ++
        "I remember that song from my own childhood".toList ++ post0,
      emotionalMarkers := [], psychologicalPatterns := [],
      validationScore := none, boundaryViolations := [] } id3 t3 _ c2 hcur2
  have hlast3 : c3.messages.getLast? = some
      { id := id3, role := Role.assistant,
        content := pre ++
          "I remember that song from my own childhood".toList ++ post0,
        timestamp := t3,
        emotionalMarkers := extractEmotionalMarkers
          (pre ++ "I remember that song from my own childhood".toList ++
            post0),
        psychologicalPatterns := extractPsychologicalPatterns
          (pre ++ "I remember that song from my own childhood".toList ++
            post0),
        validationScore := some 100, boundaryViolations := [] } := by
    rw [hm3]
    exact List.getLast?_concat _
  have hproc : processAssistantResponse
      (pre ++ "I remember that song from my own childhood".toList ++ post0)
      "I love this song, it reminds me of summer,".toList t4
      (addMessage
        { role := Role.assistant,
          content := pre ++
            "I remember that song from my own childhood".toList ++ post0,
          emotionalMarkers := [], psychologicalPatterns := [],
          validationScore := none, boundaryViolations := [] } id3 t3
        (addMessage
          { role := Role.user,
            content := "I love this song, it reminds me of summer,".toList,
            emotionalMarkers := [], psychologicalPatterns := [],
            validationScore := none, boundaryViolations := [] } id2 t2
          (createNewSession SessionType.music id1 t1 st0))) =
      updateLastMessage SafeRedirects.musical_analysis 100 [] t4
        (addMessage
          { role := Role.assistant,
            content := pre ++
              "I remember that song from my own childhood".toList ++ post0,
            emotionalMarkers := [], psychologicalPatterns := [],
            validationScore := none, boundaryViolations := [] } id3 t3
          (addMessage
            { role := Role.user,
              content :=
                "I love this song, it reminds me of summer,".toList,
              emotionalMarkers := [], psychologicalPatterns := [],
              validationScore := none, boundaryViolations := [] } id2 t2
            (createNewSession SessionType.music id1 t1 st0))) := by
    simp only [processAssistantResponse]
    rw [if_pos hcrit1, if_pos hcrit2, hsafe]
  obtain ⟨c4, nl, hc4, hl4, hrole4, hcont4, hty4⟩ :=
    updateLastMessage_replaces SafeRedirects.musical_analysis 100 [] t4 _
      c3 _ hcur3 hlast3 rfl
  refine ⟨⟨"CRITICAL: AI claiming personal experiences".toList, hvmem,
    by decide⟩, c4, nl, ?_, ?_, hl4, ?_, ?_⟩
  · rw [hproc]
    exact hc4
  · rw [hty4, hty3, hty2, hty1]
  · rw [hrole4]
  · rw [hcont4]
    decide

end PsycheSiren
